import Mathlib

set_option maxHeartbeats 1000000

namespace AgeFlow

/-! Shallow embedding of the ageflow image acquisition, date-verification and
anchor-selection pipeline (src/images/collector.py, src/images/exif.py,
src/images/wikimedia.py, src/images/anchor_selector.py, src/utils/slug.py).
External effects (HTTP adapters, the file system, PIL) enter as oracle
parameters; machine strings are lists of characters; Python floats appear as
rationals; Python exceptions appear as `Except` errors. -/

/-- The ASCII part of the whitespace set recognised by Python str.strip(). -/
def isPySpace (c : Char) : Bool :=
  c = ' ' || c = '\t' || c = '\n' || c = '\r' || c = '\x0b' || c = '\x0c'

/-- Python str.strip(): drop whitespace from both ends. -/
def pyStrip (l : List Char) : List Char :=
  ((l.dropWhile isPySpace).reverse.dropWhile isPySpace).reverse

/-- Python str.strip(t) for a single character t (used by slugify's
strip of underscores). -/
def stripCharEnds (t : Char) (l : List Char) : List Char :=
  ((l.dropWhile (· = t)).reverse.dropWhile (· = t)).reverse

def isDigitCh (c : Char) : Bool := '0' ≤ c && c ≤ '9'

def digitVal (c : Char) : Nat := c.toNat - '0'.toNat

/-- Decimal digits of a natural number, most significant first (fuelled so
that the definition is structural and kernel-evaluable). -/
def natDigitsAux : Nat → Nat → List Char
  | 0, _ => []
  | fuel + 1, n =>
    if n < 10 then [Nat.digitChar n]
    else natDigitsAux fuel (n / 10) ++ [Nat.digitChar (n % 10)]

/-- Decimal representation of a natural number (glibc %Y prints the year this
way, with no zero padding). -/
def natDigits (n : Nat) : List Char := natDigitsAux (n + 1) n

/-- Two-digit zero-padded decimal (glibc %m, %d, %H, %M, %S for values
below 100). -/
def pad2 (n : Nat) : List Char := [Nat.digitChar (n / 10 % 10), Nat.digitChar (n % 10)]

/-- Three-digit zero-padded decimal, Python f-string 03d for values
below 1000. -/
def pad3 (n : Nat) : List Char :=
  [Nat.digitChar (n / 100 % 10), Nat.digitChar (n / 10 % 10), Nat.digitChar (n % 10)]

/-- Four-digit zero-padded decimal. -/
def pad4 (n : Nat) : List Char :=
  [Nat.digitChar (n / 1000 % 10), Nat.digitChar (n / 100 % 10),
   Nat.digitChar (n / 10 % 10), Nat.digitChar (n % 10)]

/-- Digit run with single underscores allowed between digits, as accepted by
Python int() after the first digit. -/
def pyIntDigits : List Char → Nat → Option Nat
  | [], acc => some acc
  | '_' :: c :: rest, acc =>
    if isDigitCh c then pyIntDigits rest (acc * 10 + digitVal c) else none
  | c :: rest, acc =>
    if isDigitCh c then pyIntDigits rest (acc * 10 + digitVal c) else none

def pyIntCore : List Char → Option Nat
  | c :: rest => if isDigitCh c then pyIntDigits rest (digitVal c) else none
  | [] => none

/-- Python int(str) on ASCII input: strip whitespace, optional sign, decimal
digits with optional single underscores between digits; none models the
ValueError raised on any other input. -/
def pyInt (l : List Char) : Option Int :=
  let t := pyStrip l
  match t with
  | '+' :: rest => (pyIntCore rest).map (fun n => (n : Int))
  | '-' :: rest => (pyIntCore rest).map (fun n => -(n : Int))
  | _ => (pyIntCore t).map (fun n => (n : Int))

/-- collector._year_from_date: int(date_str[:4]); the error is the Python
ValueError int() raises on a non-numeric prefix. -/
def yearFromDate (s : String) : Except Unit Int :=
  match pyInt (s.data.take 4) with
  | some n => .ok n
  | none => .error ()

/-! ### A model of datetime.strptime for the three formats used by exif.py

CPython compiles each directive to a regular expression; the directives used
here are, in the order their alternatives are tried:
  %Y  four digits;
  %m  1[0-2] | 0[1-9] | [1-9];
  %d  3[0-1] | [1-2]digit | 0[1-9] | [1-9] | space[1-9];
  %H  2[0-3] | [0-1]digit | digit;
  %M  [0-5]digit | digit;
  %S  6[0-1] | [0-5]digit | digit.
The full string must be consumed, and the parsed fields must form a valid
datetime (the constructor check): otherwise ValueError propagates to the
caller's fallback chain. -/

def parseY4 : List Char → Option (Nat × List Char)
  | a :: b :: c :: d :: rest =>
    if isDigitCh a && isDigitCh b && isDigitCh c && isDigitCh d then
      some (((digitVal a * 10 + digitVal b) * 10 + digitVal c) * 10 + digitVal d, rest)
    else none
  | _ => none

def parseMon : List Char → Option (Nat × List Char)
  | c :: d :: rest =>
    if c = '1' && ('0' ≤ d && d ≤ '2') then some (10 + digitVal d, rest)
    else if c = '0' && ('1' ≤ d && d ≤ '9') then some (digitVal d, rest)
    else if '1' ≤ c && c ≤ '9' then some (digitVal c, d :: rest)
    else none
  | [c] => if '1' ≤ c && c ≤ '9' then some (digitVal c, []) else none
  | [] => none

def parseDay : List Char → Option (Nat × List Char)
  | c :: d :: rest =>
    if c = '3' && ('0' ≤ d && d ≤ '1') then some (30 + digitVal d, rest)
    else if ('1' ≤ c && c ≤ '2') && isDigitCh d then some (digitVal c * 10 + digitVal d, rest)
    else if c = '0' && ('1' ≤ d && d ≤ '9') then some (digitVal d, rest)
    else if '1' ≤ c && c ≤ '9' then some (digitVal c, d :: rest)
    else if c = ' ' && ('1' ≤ d && d ≤ '9') then some (digitVal d, rest)
    else none
  | [c] => if '1' ≤ c && c ≤ '9' then some (digitVal c, []) else none
  | [] => none

def parseHour : List Char → Option (Nat × List Char)
  | c :: d :: rest =>
    if c = '2' && ('0' ≤ d && d ≤ '3') then some (20 + digitVal d, rest)
    else if ('0' ≤ c && c ≤ '1') && isDigitCh d then some (digitVal c * 10 + digitVal d, rest)
    else if isDigitCh c then some (digitVal c, d :: rest)
    else none
  | [c] => if isDigitCh c then some (digitVal c, []) else none
  | [] => none

def parseMin : List Char → Option (Nat × List Char)
  | c :: d :: rest =>
    if ('0' ≤ c && c ≤ '5') && isDigitCh d then some (digitVal c * 10 + digitVal d, rest)
    else if isDigitCh c then some (digitVal c, d :: rest)
    else none
  | [c] => if isDigitCh c then some (digitVal c, []) else none
  | [] => none

def parseSec : List Char → Option (Nat × List Char)
  | c :: d :: rest =>
    if c = '6' && ('0' ≤ d && d ≤ '1') then some (60 + digitVal d, rest)
    else if ('0' ≤ c && c ≤ '5') && isDigitCh d then some (digitVal c * 10 + digitVal d, rest)
    else if isDigitCh c then some (digitVal c, d :: rest)
    else none
  | [c] => if isDigitCh c then some (digitVal c, []) else none
  | [] => none

def parseLit (t : Char) : List Char → Option (List Char)
  | c :: rest => if c = t then some rest else none
  | [] => none

structure TmStruct where
  y : Nat
  mon : Nat
  d : Nat
  h : Nat
  mi : Nat
  s : Nat
deriving DecidableEq

def isLeap (y : Nat) : Bool := y % 4 = 0 && (y % 100 ≠ 0 || y % 400 = 0)

def daysInMonth (y m : Nat) : Nat :=
  if m = 2 then (if isLeap y then 29 else 28)
  else if m = 4 || m = 6 || m = 9 || m = 11 then 30
  else 31

/-- Validity as enforced by the datetime constructor. -/
def dtValid (y m d h mi s : Nat) : Bool :=
  1 ≤ y && y ≤ 9999 && 1 ≤ m && m ≤ 12 && 1 ≤ d && d ≤ daysInMonth y m &&
  h ≤ 23 && mi ≤ 59 && s ≤ 59

def parseDateCore (sep : Char) (l : List Char) : Option (Nat × Nat × Nat × List Char) :=
  match parseY4 l with
  | none => none
  | some (y, l1) =>
    match parseLit sep l1 with
    | none => none
    | some l2 =>
      match parseMon l2 with
      | none => none
      | some (m, l3) =>
        match parseLit sep l3 with
        | none => none
        | some l4 =>
          match parseDay l4 with
          | none => none
          | some (d, l5) => some (y, m, d, l5)

def parseTimeCore (l : List Char) : Option (Nat × Nat × Nat × List Char) :=
  match parseHour l with
  | none => none
  | some (h, l1) =>
    match parseLit ':' l1 with
    | none => none
    | some l2 =>
      match parseMin l2 with
      | none => none
      | some (mi, l3) =>
        match parseLit ':' l3 with
        | none => none
        | some l4 =>
          match parseSec l4 with
          | none => none
          | some (s, l5) => some (h, mi, s, l5)

/-- strptime for the two datetime formats (sep = ':' or '-'):
sep-separated date, one space, colon-separated time. -/
def strptimeDT (sep : Char) (l : List Char) : Option TmStruct :=
  match parseDateCore sep l with
  | none => none
  | some (y, m, d, l1) =>
    match parseLit ' ' l1 with
    | none => none
    | some l2 =>
      match parseTimeCore l2 with
      | none => none
      | some (h, mi, s, l3) =>
        if l3 = [] && dtValid y m d h mi s then some ⟨y, m, d, h, mi, s⟩ else none

/-- strptime for the bare date format YYYY-MM-DD. -/
def strptimeD (l : List Char) : Option TmStruct :=
  match parseDateCore '-' l with
  | none => none
  | some (y, m, d, l1) =>
    if l1 = [] && dtValid y m d 0 0 0 then some ⟨y, m, d, 0, 0, 0⟩ else none

/-- datetime.strftime of %Y-%m-%d on glibc: year unpadded, month and day
zero-padded to two digits. -/
def fmtYmd (y m d : Nat) : List Char :=
  natDigits y ++ '-' :: (pad2 m ++ '-' :: pad2 d)

/-- exif._normalize_exif_datetime: strip, try "%Y:%m:%d %H:%M:%S", then
"%Y-%m-%d %H:%M:%S", then "%Y-%m-%d"; re-emit as %Y-%m-%d. -/
def normalizeExifDatetime (value : String) : Option String :=
  if value = "" then none
  else
    let v := pyStrip value.data
    match strptimeDT ':' v with
    | some t => some (String.mk (fmtYmd t.y t.mon t.d))
    | none =>
      match strptimeDT '-' v with
      | some t => some (String.mk (fmtYmd t.y t.mon t.d))
      | none =>
        match strptimeD v with
        | some t => some (String.mk (fmtYmd t.y t.mon t.d))
        | none => none

/-! ### wikimedia.py date extraction -/

/-- str.split(sep)[0].strip(), applied only when sep occurs in the string
(the cleanup loop of wikimedia._extract_extmeta_date). -/
def splitHead (sep : Char) (l : List Char) : List Char :=
  if l.contains sep then pyStrip (l.takeWhile (· ≠ sep)) else l

/-- wikimedia._extract_extmeta_date, body for one extmetadata value: strip,
cut at 'T' or ' ', and if positions 4 and 7 carry ':' (converted to '-')
or '-', return the 10-character prefix. No digit validation is performed. -/
def extmetaNormalizeValue (val : String) : Option String :=
  let v0 := pyStrip val.data
  let v1 := splitHead 'T' v0
  let v := splitHead ' ' v1
  if 10 ≤ v.length then
    let v2 :=
      if v.get? 4 = some ':' && v.get? 7 = some ':' then
        (v.take 10).map (fun c => if c = ':' then '-' else c)
      else v
    if v2.get? 4 = some '-' && v2.get? 7 = some '-' then
      some (String.mk (v2.take 10))
    else none
  else none

/-- Lookup in a string-keyed map with optional values: absence and a stored
None are both falsy to the Python callers. -/
def lookupMeta (m : List (String × Option String)) (k : String) : Option String :=
  match m.lookup k with
  | some v => v
  | none => none

def extmetaKeyLoop (extmeta : List (String × Option String)) :
    List String → Option String × Option String
  | [] => (none, none)
  | k :: ks =>
    match lookupMeta extmeta k with
    | some v =>
      if v = "" then extmetaKeyLoop extmeta ks
      else
        match extmetaNormalizeValue v with
        | some d => (some d, some ("commons:" ++ k))
        | none => extmetaKeyLoop extmeta ks
    | none => extmetaKeyLoop extmeta ks

/-- wikimedia._extract_extmeta_date (= extract_verified_date_from_commons):
extmeta is modelled as the map from key to the optional string value of the
node; missing keys, falsy nodes and non-string values all appear as none. -/
def extractExtmetaDate (extmeta : List (String × Option String)) :
    Option String × Option String :=
  extmetaKeyLoop extmeta ["DateTimeOriginal", "DateTimeDigitized", "DateTime", "Date"]

/-! ### Data model (src/images/models.py, src/images/anchor_selector.py) -/

/-- models.VerifiedDate; the float confidence is modelled as a rational. -/
structure VerifiedDate where
  date : String
  year : Int
  method : String
  confidence : ℚ
deriving DecidableEq

/-- models.ImageCandidate. meta is modelled as a string-keyed map of optional
string values; integer-valued auxiliary keys (query_year) are never read by
the code under verification and are not modelled. -/
structure ImageCandidate where
  source : String
  title : String
  page_url : Option String := none
  image_url : String
  local_path : Option String := none
  verified : Bool := false
  verified_date : Option VerifiedDate := none
  meta : List (String × Option String) := []
deriving DecidableEq

/-- models.ImageManifest. -/
structure ImageManifest where
  celebrity_name : String
  celebrity_slug : String
  target_year_end : Int
  candidates : List ImageCandidate := []
  verified_years : List Int := []
  verified_count : Nat := 0
deriving DecidableEq

/-- anchor_selector.Anchor. -/
structure Anchor where
  year : Int
  age : Int
  image_path : String
  source : String
  verified : Bool
deriving DecidableEq

/-! ### utils/slug.py -/

/-- A character matched by the regex class backslash-s, underscore, dash. -/
def isSlugSep (c : Char) : Bool := isPySpace c || c = '_' || c = '-'

/-- Replace every maximal run of slug separators by one underscore
(re.sub of a separator run with an underscore); fuelled structural form. -/
def slugCollapseAux : Nat → List Char → List Char
  | 0, _ => []
  | _, [] => []
  | fuel + 1, c :: rest =>
    if isSlugSep c then '_' :: slugCollapseAux fuel (rest.dropWhile isSlugSep)
    else c :: slugCollapseAux fuel rest

def slugCollapse (l : List Char) : List Char := slugCollapseAux l.length l

/-- utils.slug.slugify (ASCII model of str.lower and of the two regexes):
strip, lowercase, keep lowercase alphanumerics and separators, collapse
separator runs to underscores, strip underscores at the ends. -/
def slugify (name : String) : String :=
  let s0 := (pyStrip name.data).map Char.toLower
  let s1 := s0.filter (fun c =>
    ('a' ≤ c && c ≤ 'z') || ('0' ≤ c && c ≤ '9') || isSlugSep c)
  String.mk (stripCharEnds '_' (slugCollapse s1))

/-! ### Verifiers (src/images/collector.py) -/

/-- collector._verify_with_commons. The error case models the ValueError
that int() raises inside the VerifiedDate construction when the stored
commons_date has a non-numeric 4-character head. -/
def verifyWithCommons (c : ImageCandidate) : Except Unit ImageCandidate :=
  if c.source ≠ "wikimedia" then .ok c
  else
    match lookupMeta c.meta "commons_date", lookupMeta c.meta "commons_date_method" with
    | some ds, some mth =>
      if ds ≠ "" && mth ≠ "" then
        match yearFromDate ds with
        | .ok y => .ok { c with
            verified := true
            verified_date := some ⟨ds, y, mth, (95 : ℚ) / 100⟩ }
        | .error e => .error e
      else .ok c
    | _, _ => .ok c

/-- PIL-level oracle for one local file: none models a missing or unreadable
EXIF block (the except path of extract_exif_date); some tags gives the raw
value stored under each EXIF tag name. -/
def ExifOracle := String → Option (String → Option String)

def exifTagLoop (tags : String → Option String) :
    List String → Option String × Option String
  | [] => (none, none)
  | t :: ts =>
    match tags t with
    | some raw =>
      if raw = "" then exifTagLoop tags ts
      else
        match normalizeExifDatetime raw with
        | some d => (some d, some t)
        | none => exifTagLoop tags ts
    | none => exifTagLoop tags ts

/-- exif.extract_exif_date: first of DateTimeOriginal, DateTimeDigitized,
DateTime whose raw value is truthy and normalizes. -/
def extractExifDate (ex : ExifOracle) (path : String) :
    Option String × Option String :=
  match ex path with
  | none => (none, none)
  | some tags => exifTagLoop tags ["DateTimeOriginal", "DateTimeDigitized", "DateTime"]

/-- collector._verify_with_exif. The error case again models the int()
ValueError, which in this caller is uncaught. -/
def verifyWithExif (ex : ExifOracle) (c : ImageCandidate) : Except Unit ImageCandidate :=
  match c.local_path with
  | none => .ok c
  | some p =>
    match extractExifDate ex p with
    | (some d, tag) =>
      if d = "" then .ok c
      else
        match yearFromDate d with
        | .ok y => .ok { c with
            verified := true
            verified_date := some ⟨d, y,
              "exif:" ++ (match tag with | some t => t | none => "None"),
              if tag = some "DateTimeOriginal" then (98 : ℚ) / 100 else (93 : ℚ) / 100⟩ }
        | .error e => .error e
    | (none, _) => .ok c

/-! ### Download step (collector._download_candidate, _safe_ext) -/

def containsSub (pat l : List Char) : Bool := l.tails.any (fun t => pat.isPrefixOf t)

/-- collector._safe_ext. -/
def safeExt (url : String) : String :=
  let u := url.data.map Char.toLower
  if containsSub ".jpg".data u then ".jpg"
  else if containsSub ".jpeg".data u then ".jpg"
  else if containsSub ".png".data u then ".png"
  else if containsSub ".webp".data u then ".webp"
  else ".jpg"

/-- Download oracle: url and destination path to none on success or the
exception text on failure (download_file raising after retries). -/
def DownloadOracle := String → String → Option String

/-- Python dict assignment on the modelled meta map: update in place when the
key exists, append otherwise. -/
def setMeta (m : List (String × Option String)) (k : String) (v : Option String) :
    List (String × Option String) :=
  if m.any (fun kv => kv.1 = k) then m.map (fun kv => if kv.1 = k then (k, v) else kv)
  else m ++ [(k, v)]

def rawDirStr (celebrityName : String) : String := "images/raw/" ++ slugify celebrityName

/-- collector._download_candidate. -/
def downloadCandidate (dl : DownloadOracle) (c : ImageCandidate) (idx : Nat)
    (celebrityName : String) : ImageCandidate :=
  let ext := safeExt c.image_url
  let filename := String.mk (pad3 idx) ++ "_" ++
    String.mk ((slugify c.title).data.take 60) ++ ext
  let outpath := rawDirStr celebrityName ++ "/" ++ filename
  match dl c.image_url outpath with
  | none => { c with local_path := some outpath }
  | some err => { c with meta := setMeta c.meta "download_error" (some err) }

/-! ### Aggregation with deduplication (collector.push_candidate)

The five source sections of collect_images_for_celebrity each construct
candidates inside a try-scope and hand them to push_candidate; wikimedia
candidates pass through _verify_with_commons first, and an exception raised
there abandons the rest of that try-scope. A SourceBlock is one such scope
with the (externally produced) candidates it constructs. -/

structure AggState where
  seenUrls : List String
  seenTitles : List String
  candidates : List ImageCandidate

/-- collector.push_candidate: drop the lead when its url or title was already
seen, otherwise record url, title and candidate. -/
def pushCandidate (st : AggState) (cand : ImageCandidate) : AggState :=
  if st.seenUrls.contains cand.image_url then st
  else if st.seenTitles.contains cand.title then st
  else ⟨st.seenUrls ++ [cand.image_url], st.seenTitles ++ [cand.title],
        st.candidates ++ [cand]⟩

structure SourceBlock where
  viaCommons : Bool
  leads : List ImageCandidate

def processLeads (viaCommons : Bool) : AggState → List ImageCandidate → AggState
  | st, [] => st
  | st, lead :: rest =>
    if viaCommons then
      match verifyWithCommons lead with
      | .error _ => st
      | .ok c => processLeads viaCommons (pushCandidate st c) rest
    else processLeads viaCommons (pushCandidate st lead) rest

/-- The candidate aggregation phase of collect_images_for_celebrity. -/
def aggregate (blocks : List SourceBlock) : AggState :=
  blocks.foldl (fun st b => processLeads b.viaCommons st b.leads) ⟨[], [], []⟩

/-- The stream of leads that actually reach push_candidate (wikimedia leads
after commons verification, cut at the first exception of a block). -/
def okLeads (viaCommons : Bool) : List ImageCandidate → List ImageCandidate
  | [] => []
  | lead :: rest =>
    if viaCommons then
      match verifyWithCommons lead with
      | .error _ => []
      | .ok c => c :: okLeads viaCommons rest
    else lead :: okLeads viaCommons rest

def processedLeads (blocks : List SourceBlock) : List ImageCandidate :=
  (blocks.map (fun b => okLeads b.viaCommons b.leads)).flatten

/-! ### Manifest construction and the orchestrator -/

/-- The year cached in a candidate's verified date (0 when absent; every use
site in the Python code has already established presence). -/
def vdYear (c : ImageCandidate) : Int :=
  match c.verified_date with
  | some vd => vd.year
  | none => 0

/-- sorted(set(..)) over the verified years, plus the verified count and the
manifest record (collector lines building ImageManifest). -/
def buildManifest (celebrityName : String) (targetYearEnd : Int)
    (downloaded : List ImageCandidate) : ImageManifest :=
  { celebrity_name := celebrityName
    celebrity_slug := slugify celebrityName
    target_year_end := targetYearEnd
    candidates := downloaded
    verified_years := List.insertionSort (· ≤ ·)
      (((downloaded.filter (fun c => c.verified && c.verified_date.isSome)).map vdYear).dedup)
    verified_count := (downloaded.filter (fun c => c.verified)).length }

/-- The download-and-EXIF-verify loop, enumerate starting at 1; the EXIF
verifier's int() exception is uncaught here and aborts the whole run. -/
def downloadLoop (dl : DownloadOracle) (ex : ExifOracle) (celebrityName : String) :
    List ImageCandidate → Nat → Except Unit (List ImageCandidate)
  | [], _ => .ok []
  | c :: rest, idx =>
    let c1 := downloadCandidate dl c idx celebrityName
    match verifyWithExif ex c1 with
    | .error e => .error e
    | .ok c2 =>
      match downloadLoop dl ex celebrityName rest (idx + 1) with
      | .error e => .error e
      | .ok ds => .ok (c2 :: ds)

/-- The world the orchestrator runs in: whether a manifest file exists and
its validated contents, the leads each source scope constructs, and the
download and EXIF oracles. -/
structure CollectEnv where
  celebrityName : String
  birthYear : Int
  targetYearEnd : Int
  manifestExists : Bool
  cached : ImageManifest
  blocks : List SourceBlock
  download : DownloadOracle
  exif : ExifOracle

/-- Externally visible effects of one orchestrator run. -/
structure CollectEffects where
  persisted : Option ImageManifest
  queriedSources : Bool
  downloadAttempts : Nat
deriving DecidableEq

structure CollectOut where
  result : Except Unit ImageManifest
  effects : CollectEffects

/-- collector.collect_images_for_celebrity. Directory creation is not
modelled; the cached-manifest read returns env.cached. The download budget
is 140 as in the source. -/
def collectImagesForCelebrity (env : CollectEnv) (force : Bool) : CollectOut :=
  if env.manifestExists && !force then
    { result := .ok env.cached, effects := ⟨none, false, 0⟩ }
  else
    let agg := aggregate env.blocks
    let toDownload := agg.candidates.take 140
    match downloadLoop env.download env.exif env.celebrityName toDownload 1 with
    | .error e => { result := .error e, effects := ⟨none, true, toDownload.length⟩ }
    | .ok downloaded =>
      let manifest := buildManifest env.celebrityName env.targetYearEnd downloaded
      { result := .ok manifest, effects := ⟨some manifest, true, toDownload.length⟩ }

/-! ### Anchor selection (src/images/anchor_selector.py)

MAX_ANCHORS = 8, MIN_ANCHORS = 5, MIN_YEAR_GAP = 3. -/

inductive SelectError where
  | noVerifiedImages
  | insufficientYearDiversity
deriving DecidableEq

def mkAnchor (c : ImageCandidate) (birthYear : Int) : Anchor :=
  { year := vdYear c
    age := vdYear c - birthYear
    image_path := c.local_path.getD ""
    source := c.source
    verified := true }

/-- The strict greedy walk of select_anchors: skip a candidate whose year is
closer than MIN_YEAR_GAP to the last accepted year, stop once MAX_ANCHORS
are accepted. cnt is len(anchors) so far. -/
def strictLoop (birthYear : Int) : List ImageCandidate → Option Int → Nat → List Anchor
  | [], _, _ => []
  | c :: rest, lastYear, cnt =>
    let y := vdYear c
    match lastYear with
    | some ly =>
      if y - ly < 3 then strictLoop birthYear rest (some ly) cnt
      else if cnt + 1 ≥ 8 then [mkAnchor c birthYear]
      else mkAnchor c birthYear :: strictLoop birthYear rest (some y) (cnt + 1)
    | none =>
      if cnt + 1 ≥ 8 then [mkAnchor c birthYear]
      else mkAnchor c birthYear :: strictLoop birthYear rest (some y) (cnt + 1)

/-- The walk of _relaxed_selection: reject a year lying within step of any
already used year, stop at MAX_ANCHORS. -/
def relaxedLoop (birthYear step : Int) :
    List ImageCandidate → List Int → Nat → List Anchor
  | [], _, _ => []
  | c :: rest, used, cnt =>
    let y := vdYear c
    if used.any (fun uy => |y - uy| < step) then relaxedLoop birthYear step rest used cnt
    else if cnt + 1 ≥ 8 then [mkAnchor c birthYear]
    else mkAnchor c birthYear :: relaxedLoop birthYear step rest (used ++ [y]) (cnt + 1)

/-- anchor_selector._relaxed_selection. span uses Python floor division. -/
def relaxedSelection (candidates : List ImageCandidate) (birthYear : Int) :
    Except SelectError (List Anchor) :=
  let valid := candidates.filter (fun c => c.verified_date.isSome && c.local_path.isSome)
  let years := List.insertionSort (· ≤ ·) ((valid.map vdYear).dedup)
  if years.length < 2 then .error .insufficientYearDiversity
  else
    let span := years.getLast?.getD 0 - years.head?.getD 0
    let step := max 1 (Int.fdiv span 8)
    .ok (relaxedLoop birthYear step valid [] 0)

def eligibleCandidates (m : ImageManifest) : List ImageCandidate :=
  m.candidates.filter (fun c => c.verified && c.verified_date.isSome && c.local_path.isSome)

def candLE (a b : ImageCandidate) : Prop := vdYear a ≤ vdYear b

instance : DecidableRel candLE :=
  fun a b => inferInstanceAs (Decidable (vdYear a ≤ vdYear b))

instance : IsTotal ImageCandidate candLE := ⟨fun x y => Int.le_total (vdYear x) (vdYear y)⟩

instance : IsTrans ImageCandidate candLE := ⟨fun _ _ _ => Int.le_trans⟩

/-- anchor_selector.select_anchors. Python's list.sort is stable; the
insertion sort used here is stable as well, so the two agree. -/
def selectAnchors (m : ImageManifest) (birthYear : Int) :
    Except SelectError (List Anchor) :=
  let dated := eligibleCandidates m
  if dated.isEmpty then .error .noVerifiedImages
  else
    let sorted := List.insertionSort candLE dated
    let strict := strictLoop birthYear sorted none 0
    if strict.length < 5 then relaxedSelection sorted birthYear
    else .ok strict

/-- Modelled from the spec: the relaxed fallback as claim C3 words it,
walking the eligible candidates in their original (pre-sort) manifest order.
Used only to compare the wording against the implementation, which sorts
the list in place before the fallback runs. -/
def relaxedSelectionSpecOrder (m : ImageManifest) (birthYear : Int) :
    Except SelectError (List Anchor) :=
  relaxedSelection (eligibleCandidates m) birthYear

deriving instance DecidableEq for Except

/-! ### Concrete fixtures used by witnesses and counterexamples -/

/-- A commons-verified, downloaded candidate with the given year. -/
def verifiedCand (yr : Int) (ds path ttl url : String) : ImageCandidate :=
  { source := "wikimedia", title := ttl, image_url := url,
    local_path := some path, verified := true,
    verified_date := some ⟨ds, yr, "commons:DateTime", (95 : ℚ) / 100⟩ }

/-- Two verified candidates listed with the later year first. -/
def manifestTwo : ImageManifest :=
  { celebrity_name := "Test Person", celebrity_slug := "test_person",
    target_year_end := 2025,
    candidates := [verifiedCand 2005 "2005-01-01" "p1" "t1" "u1",
                   verifiedCand 2000 "2000-01-01" "p2" "t2" "u2"] }

/-- The concrete scenario of the spec: verified candidates dated 1995, 1998,
2001, 2004, 2007, 2010, 2024. -/
def manifestSeven : ImageManifest :=
  { celebrity_name := "Test Person", celebrity_slug := "test_person",
    target_year_end := 2025,
    candidates := [verifiedCand 1995 "1995-01-01" "p1" "t1" "u1",
                   verifiedCand 1998 "1998-01-01" "p2" "t2" "u2",
                   verifiedCand 2001 "2001-01-01" "p3" "t3" "u3",
                   verifiedCand 2004 "2004-01-01" "p4" "t4" "u4",
                   verifiedCand 2007 "2007-01-01" "p5" "t5" "u5",
                   verifiedCand 2010 "2010-01-01" "p6" "t6" "u6",
                   verifiedCand 2024 "2024-01-01" "p7" "t7" "u7"] }

/-- A commons-verified candidate whose downloaded file carries a different
EXIF capture date. -/
def overwriteCand : ImageCandidate :=
  { source := "wikimedia", title := "t", image_url := "u", local_path := some "p",
    verified := true,
    verified_date := some ⟨"2010-01-02", 2010, "commons:DateTime", (95 : ℚ) / 100⟩ }

def overwriteOracle : ExifOracle := fun _ =>
  some (fun t => if t = "DateTimeOriginal" then some "2019:05:17 13:44:02" else none)

/-- A wikimedia lead carrying commons date metadata, not yet verified. -/
def commonsLead : ImageCandidate :=
  { source := "wikimedia", title := "File:T 2023.jpg", image_url := "http://x/a.jpg",
    meta := [("commons_date", some "2023-05-17"),
             ("commons_date_method", some "commons:DateTimeOriginal")] }

/-- An unverified non-wikimedia lead. -/
def bingLead : ImageCandidate :=
  { source := "bing", title := "Test Person portrait 2010",
    page_url := some "http://b/p", image_url := "http://b/i.png",
    meta := [("query_year", none)] }

/-- Fresh-run environment whose only verified candidate is dated
target_year_end - 2 and whose download always fails. -/
def envStale : CollectEnv :=
  { celebrityName := "Test Person", birthYear := 1974, targetYearEnd := 2025,
    manifestExists := false, cached := manifestTwo,
    blocks := [⟨true, [commonsLead]⟩, ⟨false, [bingLead]⟩],
    download := fun _ _ => some "timeout", exif := fun _ => none }

/-- Environment with an existing manifest file. -/
def envCached : CollectEnv :=
  { celebrityName := "Test Person", birthYear := 1974, targetYearEnd := 2025,
    manifestExists := true, cached := manifestTwo,
    blocks := [⟨true, [commonsLead]⟩],
    download := fun _ _ => some "timeout", exif := fun _ => none }

/-- Forced fresh run with no leads at all. -/
def envEmpty : CollectEnv :=
  { celebrityName := "Other Person", birthYear := 1980, targetYearEnd := 2026,
    manifestExists := true, cached := manifestTwo,
    blocks := [], download := fun _ _ => some "down", exif := fun _ => none }

/-- The candidate commonsLead after commons verification. -/
def commonsLeadVerified : ImageCandidate :=
  { commonsLead with
    verified := true
    verified_date := some ⟨"2023-05-17", 2023, "commons:DateTimeOriginal", (95 : ℚ) / 100⟩ }

/-- The candidate overwriteCand after EXIF verification replaced its
commons verified_date. -/
def overwrittenCand : ImageCandidate :=
  { overwriteCand with
    verified := true
    verified_date := some ⟨"2019-05-17", 2019, "exif:DateTimeOriginal", (98 : ℚ) / 100⟩ }

/-- The claimed shapes, zero padded: YYYY:MM:DD HH:MM:SS. -/
def colonDTShape (y m d h mi s : Nat) : String :=
  String.mk (pad4 y ++ ':' :: (pad2 m ++ ':' :: (pad2 d ++ ' ' ::
    (pad2 h ++ ':' :: (pad2 mi ++ ':' :: pad2 s)))))

/-- YYYY-MM-DD HH:MM:SS. -/
def dashDTShape (y m d h mi s : Nat) : String :=
  String.mk (pad4 y ++ '-' :: (pad2 m ++ '-' :: (pad2 d ++ ' ' ::
    (pad2 h ++ ':' :: (pad2 mi ++ ':' :: pad2 s)))))

/-- YYYY-MM-DD. -/
def dashDShape (y m d : Nat) : String :=
  String.mk (pad4 y ++ '-' :: (pad2 m ++ '-' :: pad2 d))

/-- Folding push_candidate over a flat stream of leads. -/
def foldPush (st : AggState) (l : List ImageCandidate) : AggState :=
  l.foldl pushCandidate st

/-- The seen-sets are exactly the projections of the kept candidates. -/
def AggInv (st : AggState) : Prop :=
  st.seenUrls = st.candidates.map (fun c => c.image_url) ∧
  st.seenTitles = st.candidates.map (fun c => c.title)

/-- Two candidates collide on neither dedup key. -/
def distinctKeys (a b : ImageCandidate) : Prop :=
  a.image_url ≠ b.image_url ∧ a.title ≠ b.title

/-- A lead from another source sharing bingLead's title with a new url. -/
def dupTitleLead : ImageCandidate :=
  { source := "imdb", title := "Test Person portrait 2010",
    image_url := "http://i/x.jpg" }

def dupBlocks : List SourceBlock := [⟨false, [bingLead, dupTitleLead]⟩]

/-- The sorted eligible list built by select_anchors (dated, after the
in-place sort). -/
def sortedEligible (m : ImageManifest) : List ImageCandidate :=
  List.insertionSort candLE (eligibleCandidates m)

/-- The strict greedy result of select_anchors. -/
def strictOf (m : ImageManifest) (b : Int) : List Anchor :=
  strictLoop b (sortedEligible m) none 0

/-- The valid list recomputed inside _relaxed_selection. -/
def validOf (m : ImageManifest) : List ImageCandidate :=
  (sortedEligible m).filter (fun c => c.verified_date.isSome && c.local_path.isSome)

/-- The sorted distinct years of _relaxed_selection. -/
def yearsOf (m : ImageManifest) : List Int :=
  List.insertionSort (· ≤ ·) (((validOf m).map vdYear).dedup)

/-- The bucket step of _relaxed_selection. -/
def stepOf (m : ImageManifest) : Int :=
  max 1 (Int.fdiv ((yearsOf m).getLast?.getD 0 - (yearsOf m).head?.getD 0) 8)

/-! ## Theorems -/

/-- C8: when a manifest file already exists and no forced refresh was
requested, collect_images_for_celebrity returns the manifest validated from
that file unconditionally: nothing is persisted, no source adapter is
queried, no download is attempted, and in particular the recency requirement
is not re-validated. -/
theorem cached_manifest_trusted (env : CollectEnv) (h : env.manifestExists = true) :
    collectImagesForCelebrity env false =
      { result := .ok env.cached, effects := ⟨none, false, 0⟩ } := by
  simp [collectImagesForCelebrity, h]

/-- Witness for C8 at a concrete environment. -/
theorem cached_manifest_trusted_witness :
    envCached.manifestExists = true ∧
    collectImagesForCelebrity envCached false =
      { result := .ok envCached.cached, effects := ⟨none, false, 0⟩ } :=
  ⟨rfl, cached_manifest_trusted envCached rfl⟩

/-- C10: the structured-metadata verifier returns every non-wikimedia
candidate completely unchanged, and whenever it changes a candidate at all,
the candidate is a wikimedia one whose meta carries a non-empty commons_date
and a non-empty commons_date_method, and the change marks it verified
(download not required). -/
theorem commons_verifier_frame :
    (∀ c : ImageCandidate, c.source ≠ "wikimedia" → verifyWithCommons c = .ok c) ∧
    (∀ c c' : ImageCandidate, verifyWithCommons c = .ok c' → c' ≠ c →
      c.source = "wikimedia" ∧ c'.verified = true ∧
      ∃ ds mth, lookupMeta c.meta "commons_date" = some ds ∧ ds ≠ "" ∧
        lookupMeta c.meta "commons_date_method" = some mth ∧ mth ≠ "") := by
  constructor
  · intro c hs
    simp [verifyWithCommons, hs]
  · intro c c' h hne
    by_cases hs : c.source = "wikimedia"
    · unfold verifyWithCommons at h
      rw [if_neg (by simp [hs])] at h
      rcases hd : lookupMeta c.meta "commons_date" with _ | ds <;>
        rcases hm : lookupMeta c.meta "commons_date_method" with _ | mth <;>
        rw [hd, hm] at h <;> simp at h
      · exact absurd h.symm hne
      · exact absurd h.symm hne
      · exact absurd h.symm hne
      · by_cases hc : ds ≠ "" ∧ mth ≠ ""
        · rw [if_pos (by simp [hc.1, hc.2])] at h
          rcases hy : yearFromDate ds with e | y <;> rw [hy] at h <;> simp at h
          refine ⟨hs, ?_, ds, mth, rfl, hc.1, rfl, hc.2⟩
          rw [← h]
        · rw [if_neg (by simpa using fun h1 h2 => hc ⟨h1, h2⟩)] at h
          simp at h
          exact absurd h.symm hne
    · have hid : verifyWithCommons c = .ok c := by simp [verifyWithCommons, hs]
      rw [hid] at h
      simp at h
      exact absurd h.symm hne

/-- Witness for C10: a bing lead passes through unchanged; a wikimedia lead
with non-empty commons metadata is changed, and the theorem recovers the
metadata facts from that change. -/
theorem commons_verifier_frame_witness :
    verifyWithCommons bingLead = .ok bingLead ∧
    (commonsLead.source = "wikimedia" ∧ commonsLeadVerified.verified = true ∧
      ∃ ds mth, lookupMeta commonsLead.meta "commons_date" = some ds ∧ ds ≠ "" ∧
        lookupMeta commonsLead.meta "commons_date_method" = some mth ∧ mth ≠ "") :=
  ⟨commons_verifier_frame.1 bingLead (by decide),
   commons_verifier_frame.2 commonsLead commonsLeadVerified rfl (by
     intro h
     simpa [commonsLeadVerified, commonsLead] using congrArg (fun c => c.verified) h)⟩

/-- C9: whenever either verifier takes a candidate from unverified to
verified, the year cached in the new verified_date is exactly the Python
int() of the first four characters of the stored date string. -/
theorem verified_year_from_date_head :
    ∀ (ex : ExifOracle) (c c' : ImageCandidate),
      (verifyWithCommons c = .ok c' ∨ verifyWithExif ex c = .ok c') →
      c.verified = false → c'.verified = true →
      ∃ vd, c'.verified_date = some vd ∧ pyInt (vd.date.data.take 4) = some vd.year := by
  rintro ex c c' (h | h) hcv hcv'
  · by_cases hs : c.source = "wikimedia"
    · unfold verifyWithCommons at h
      rw [if_neg (by simp [hs])] at h
      rcases hd : lookupMeta c.meta "commons_date" with _ | ds <;>
        rcases hm : lookupMeta c.meta "commons_date_method" with _ | mth <;>
        rw [hd, hm] at h <;> simp at h
      · rw [← h] at hcv'; rw [hcv] at hcv'; exact absurd hcv' (by simp)
      · rw [← h] at hcv'; rw [hcv] at hcv'; exact absurd hcv' (by simp)
      · rw [← h] at hcv'; rw [hcv] at hcv'; exact absurd hcv' (by simp)
      · by_cases hc : ds ≠ "" ∧ mth ≠ ""
        · rw [if_pos (by simp [hc.1, hc.2])] at h
          rcases hy : yearFromDate ds with e | y <;> rw [hy] at h <;> simp at h
          refine ⟨⟨ds, y, mth, (95 : ℚ) / 100⟩, by rw [← h], ?_⟩
          unfold yearFromDate at hy
          rcases hp : pyInt (ds.data.take 4) with _ | n <;> rw [hp] at hy <;>
            simp at hy
          simpa using hy
        · rw [if_neg (by simpa using fun h1 h2 => hc ⟨h1, h2⟩)] at h
          simp at h
          rw [← h] at hcv'; rw [hcv] at hcv'; exact absurd hcv' (by simp)
    · have hid : verifyWithCommons c = .ok c := by simp [verifyWithCommons, hs]
      rw [hid] at h
      simp at h
      rw [← h] at hcv'; rw [hcv] at hcv'; exact absurd hcv' (by simp)
  · unfold verifyWithExif at h
    split at h
    · simp at h
      rw [← h] at hcv'; rw [hcv] at hcv'; exact absurd hcv' (by simp)
    · split at h
      case _ p _ d tag heq =>
        split at h
        · simp at h
          rw [← h] at hcv'; rw [hcv] at hcv'; exact absurd hcv' (by simp)
        · split at h
          case _ y hy =>
            simp at h
            refine ⟨_, by rw [← h], ?_⟩
            unfold yearFromDate at hy
            rcases hp : pyInt (d.data.take 4) with _ | n <;> rw [hp] at hy <;>
              simp at hy
            simpa using hy
          case _ e hy =>
            simp at h
      case _ p _ snd heq =>
        simp at h
        rw [← h] at hcv'; rw [hcv] at hcv'; exact absurd hcv' (by simp)

/-- Witness for C9 at the concrete commons verification of commonsLead. -/
theorem verified_year_from_date_head_witness :
    ∃ vd, commonsLeadVerified.verified_date = some vd ∧
      pyInt (vd.date.data.take 4) = some vd.year :=
  verified_year_from_date_head (fun _ => none) commonsLead commonsLeadVerified
    (Or.inl rfl) rfl rfl

/-- Counterexample to C2: a candidate already verified by the
structured-metadata verifier, once downloaded, is re-verified by the EXIF
verifier, which replaces its verified_date. -/
theorem exif_overwrite_counterexample :
    overwriteCand.verified = true ∧
    verifyWithExif overwriteOracle overwriteCand = .ok overwrittenCand ∧
    overwrittenCand.verified_date ≠ overwriteCand.verified_date := by
  refine ⟨rfl, rfl, ?_⟩
  intro h
  simp [overwrittenCand, overwriteCand] at h

/-- C2 as amended: the EXIF verifier runs for every candidate with a
local_path, regardless of prior verification, and overwrites verified_date
whenever EXIF yields a date; re-running either verifier on its own output
reproduces the same result (determinism), not because of an overwrite
guard. -/
theorem exif_verifier_unconditional :
    (∀ (ex : ExifOracle) (c : ImageCandidate) (p d : String) (tag : Option String) (y : Int),
      c.local_path = some p →
      extractExifDate ex p = (some d, tag) →
      d ≠ "" →
      yearFromDate d = .ok y →
      verifyWithExif ex c = .ok { c with
        verified := true
        verified_date := some ⟨d, y,
          "exif:" ++ (match tag with | some t => t | none => "None"),
          if tag = some "DateTimeOriginal" then (98 : ℚ) / 100 else (93 : ℚ) / 100⟩ }) ∧
    (∀ (ex : ExifOracle) (c c' : ImageCandidate),
      verifyWithExif ex c = .ok c' → verifyWithExif ex c' = .ok c') ∧
    (∀ (c c' : ImageCandidate),
      verifyWithCommons c = .ok c' → verifyWithCommons c' = .ok c') := by
  refine ⟨?_, ?_, ?_⟩
  · intro ex c p d tag y hl hx hd hy
    unfold verifyWithExif
    rw [hl]
    dsimp only
    rw [hx]
    dsimp only
    rw [if_neg hd, hy]
  · intro ex c c' h
    obtain ⟨src, ttl, pu, iu, lp, v, vd, mt⟩ := c
    unfold verifyWithExif at h
    dsimp only at h
    cases lp with
    | none =>
      simp at h
      rw [← h]
      rfl
    | some p =>
      dsimp only at h
      rcases hx : extractExifDate ex p with ⟨od, tag⟩
      rw [hx] at h
      cases od with
      | none =>
        simp at h
        rw [← h]
        unfold verifyWithExif
        dsimp only
        rw [hx]
      | some d =>
        dsimp only at h
        by_cases hde : d = ""
        · rw [if_pos hde] at h
          simp at h
          rw [← h]
          unfold verifyWithExif
          dsimp only
          rw [hx]
          dsimp only
          rw [if_pos hde]
        · rw [if_neg hde] at h
          rcases hy : yearFromDate d with e | y <;> rw [hy] at h
          · simp at h
          · simp at h
            rw [← h]
            unfold verifyWithExif
            dsimp only
            rw [hx]
            dsimp only
            rw [if_neg hde, hy]
  · intro c c' h
    obtain ⟨src, ttl, pu, iu, lp, v, vd, mt⟩ := c
    unfold verifyWithCommons at h
    dsimp only at h
    by_cases hs : src = "wikimedia"
    · rw [if_neg (by simp [hs])] at h
      rcases hd : lookupMeta mt "commons_date" with _ | ds <;>
        rcases hm : lookupMeta mt "commons_date_method" with _ | mth <;>
        rw [hd, hm] at h <;> dsimp only at h
      · simp at h
        rw [← h]
        unfold verifyWithCommons
        dsimp only
        rw [if_neg (by simp [hs]), hd, hm]
      · simp at h
        rw [← h]
        unfold verifyWithCommons
        dsimp only
        rw [if_neg (by simp [hs]), hd, hm]
      · simp at h
        rw [← h]
        unfold verifyWithCommons
        dsimp only
        rw [if_neg (by simp [hs]), hd, hm]
      · by_cases hc : ds ≠ "" ∧ mth ≠ ""
        · rw [if_pos (by simp [hc.1, hc.2])] at h
          rcases hy : yearFromDate ds with e | y <;> rw [hy] at h
          · simp at h
          · simp at h
            rw [← h]
            unfold verifyWithCommons
            dsimp only
            rw [if_neg (by simp [hs]), hd, hm]
            dsimp only
            rw [if_pos (by simp [hc.1, hc.2]), hy]
        · rw [if_neg (by simpa using fun h1 h2 => hc ⟨h1, h2⟩)] at h
          simp at h
          rw [← h]
          unfold verifyWithCommons
          dsimp only
          rw [if_neg (by simp [hs]), hd, hm]
          dsimp only
          rw [if_neg (by simpa using fun h1 h2 => hc ⟨h1, h2⟩)]
    · rw [if_pos (by simp [hs])] at h
      simp at h
      rw [← h]
      unfold verifyWithCommons
      dsimp only
      rw [if_pos (by simp [hs])]

/-- Witness for the amended C2 at the concrete overwrite scenario: the EXIF
verifier fires on the already-verified overwriteCand, and re-running it on
the result reproduces the result. -/
theorem exif_verifier_unconditional_witness :
    verifyWithExif overwriteOracle overwriteCand = .ok overwrittenCand ∧
    verifyWithExif overwriteOracle overwrittenCand = .ok overwrittenCand := by
  have h1 : verifyWithExif overwriteOracle overwriteCand = .ok overwrittenCand :=
    exif_verifier_unconditional.1 overwriteOracle overwriteCand "p" "2019-05-17"
      (some "DateTimeOriginal") 2019 rfl rfl (by decide) rfl
  exact ⟨h1, exif_verifier_unconditional.2.1 overwriteOracle overwriteCand
    overwrittenCand h1⟩

/-- Counterexample to C7: the EXIF normalizer also accepts a
non-zero-padded variant (not one of the three claimed shapes), rejects a
string that has the claimed colon shape but is not a real calendar date,
and the Commons normalizer accepts a positionally dashed string containing
no digits at all. -/
theorem date_normalization_counterexample :
    normalizeExifDatetime "2019:2:3 4:5:6" = some "2019-02-03" ∧
    normalizeExifDatetime "2019:02:30 10:00:00" = none ∧
    extmetaNormalizeValue "abcd-ef-ghXY" = some "abcd-ef-gh" :=
  ⟨rfl, rfl, rfl⟩

/-- Counterexample to C1: in a fresh run whose only verified year is
target_year_end - 2 (so no verified candidate reaches
target_year_end - 1), the orchestrator still persists the manifest and
returns it successfully instead of failing with an
insufficient-recency-coverage error. -/
theorem recency_not_enforced_counterexample :
    ∃ m : ImageManifest,
      collectImagesForCelebrity envStale false =
        { result := .ok m, effects := ⟨some m, true, 2⟩ } ∧
      m.verified_years = [2023] ∧
      m.target_year_end = 2025 :=
  ⟨_, rfl, rfl, rfl⟩

/-- C1 as amended: on a fresh run (no cached manifest, or a forced refresh),
once the download-and-verify loop completes the orchestrator always persists
the built manifest and returns it successfully; no recency-coverage
condition is checked and no such failure exists. -/
theorem manifest_persisted_and_returned (env : CollectEnv) (force : Bool)
    (hfresh : env.manifestExists = false ∨ force = true)
    (ds : List ImageCandidate)
    (hloop : downloadLoop env.download env.exif env.celebrityName
      ((aggregate env.blocks).candidates.take 140) 1 = .ok ds) :
    (collectImagesForCelebrity env force).result =
      .ok (buildManifest env.celebrityName env.targetYearEnd ds) ∧
    (collectImagesForCelebrity env force).effects.persisted =
      some (buildManifest env.celebrityName env.targetYearEnd ds) := by
  have hcond : (env.manifestExists && !force) = false := by
    rcases hfresh with h | h <;> simp [h]
  unfold collectImagesForCelebrity
  rw [hcond]
  simp only [Bool.false_eq_true, if_false]
  rw [hloop]
  exact ⟨rfl, rfl⟩

/-- Witness for the amended C1: a forced empty run persists and returns the
empty manifest. -/
theorem manifest_persisted_and_returned_witness :
    (collectImagesForCelebrity envEmpty true).result =
      .ok (buildManifest "Other Person" 2026 []) ∧
    (collectImagesForCelebrity envEmpty true).effects.persisted =
      some (buildManifest "Other Person" 2026 []) :=
  manifest_persisted_and_returned envEmpty true (Or.inr rfl) [] rfl

theorem pushCandidate_inv (st : AggState) (c : ImageCandidate) (h : AggInv st) :
    AggInv (pushCandidate st c) := by
  unfold pushCandidate
  split
  · exact h
  · split
    · exact h
    · exact ⟨by simp [h.1], by simp [h.2]⟩

/-- Behaviour of one push against a state whose seen-sets track its
candidates: either some kept candidate collides and the state is unchanged,
or no kept candidate collides and the lead is appended. -/
theorem pushCandidate_spec (st : AggState) (c : ImageCandidate) (h : AggInv st) :
    ((∃ x ∈ st.candidates, x.image_url = c.image_url ∨ x.title = c.title) ∧
      pushCandidate st c = st) ∨
    ((∀ x ∈ st.candidates, x.image_url ≠ c.image_url ∧ x.title ≠ c.title) ∧
      pushCandidate st c =
        ⟨st.seenUrls ++ [c.image_url], st.seenTitles ++ [c.title],
         st.candidates ++ [c]⟩) := by
  unfold pushCandidate
  by_cases hu : c.image_url ∈ st.seenUrls
  · rw [if_pos (by simpa [List.contains] using hu)]
    left
    refine ⟨?_, rfl⟩
    rw [h.1] at hu
    rcases List.mem_map.mp hu with ⟨x, hx, hxe⟩
    exact ⟨x, hx, Or.inl hxe⟩
  · rw [if_neg (by simpa [List.contains] using hu)]
    by_cases ht : c.title ∈ st.seenTitles
    · rw [if_pos (by simpa [List.contains] using ht)]
      left
      refine ⟨?_, rfl⟩
      rw [h.2] at ht
      rcases List.mem_map.mp ht with ⟨x, hx, hxe⟩
      exact ⟨x, hx, Or.inr hxe⟩
    · rw [if_neg (by simpa [List.contains] using ht)]
      right
      refine ⟨?_, rfl⟩
      intro x hx
      constructor
      · intro he; exact hu (h.1 ▸ List.mem_map.mpr ⟨x, hx, he⟩)
      · intro he; exact ht (h.2 ▸ List.mem_map.mpr ⟨x, hx, he⟩)

/-- One push either leaves the state unchanged or appends the lead. -/
theorem pushCandidate_eq (st : AggState) (c : ImageCandidate) :
    pushCandidate st c = st ∨
    pushCandidate st c =
      ⟨st.seenUrls ++ [c.image_url], st.seenTitles ++ [c.title],
       st.candidates ++ [c]⟩ := by
  unfold pushCandidate
  split
  · exact Or.inl rfl
  · split
    · exact Or.inl rfl
    · exact Or.inr rfl

theorem foldPush_inv (P : List ImageCandidate) (st : AggState) (h : AggInv st) :
    AggInv (foldPush st P) := by
  induction P generalizing st with
  | nil => exact h
  | cons q P ih => exact ih _ (pushCandidate_inv st q h)

/-- The fold only appends: kept candidates of the initial state stay, in
order, and what is appended is a sublist of the stream. -/
theorem foldPush_append_state (P : List ImageCandidate) (st : AggState) :
    ∃ k, (foldPush st P).candidates = st.candidates ++ k ∧ k.Sublist P := by
  induction P generalizing st with
  | nil => exact ⟨[], by simp [foldPush], List.Sublist.refl []⟩
  | cons q P ih =>
    rcases ih (pushCandidate st q) with ⟨k, hk, hs⟩
    have hstep : foldPush st (q :: P) = foldPush (pushCandidate st q) P := rfl
    rcases pushCandidate_eq st q with heq | heq
    · rw [heq] at hk
      exact ⟨k, by rw [hstep, heq]; exact hk, hs.cons q⟩
    · rw [heq] at hk
      dsimp only at hk
      refine ⟨q :: k, ?_, hs.cons₂ q⟩
      rw [hstep, heq, hk]
      simp

theorem foldPush_pairwise (P : List ImageCandidate) (st : AggState) (h : AggInv st)
    (hp : st.candidates.Pairwise distinctKeys) :
    (foldPush st P).candidates.Pairwise distinctKeys := by
  induction P generalizing st with
  | nil => exact hp
  | cons q P ih =>
    have hstep : foldPush st (q :: P) = foldPush (pushCandidate st q) P := rfl
    rw [hstep]
    rcases pushCandidate_spec st q h with ⟨_, heq⟩ | ⟨hnew, heq⟩
    · rw [heq]; exact ih st h hp
    · refine ih _ (heq ▸ pushCandidate_inv st q h) ?_
      rw [heq]
      refine List.pairwise_append.mpr ⟨hp, List.pairwise_singleton _ _, ?_⟩
      intro a ha b hb
      rw [List.mem_singleton.mp hb]
      exact hnew a ha

/-- Every lead of the stream is represented in the output by some kept
candidate sharing its url or its title. -/
theorem foldPush_covers (P : List ImageCandidate) (st : AggState) (h : AggInv st) :
    ∀ lead ∈ P, ∃ x ∈ (foldPush st P).candidates,
      x.image_url = lead.image_url ∨ x.title = lead.title := by
  induction P generalizing st with
  | nil => intro _ h'; cases h'
  | cons q P ih =>
    intro lead hmem
    have hstep : foldPush st (q :: P) = foldPush (pushCandidate st q) P := rfl
    rcases List.mem_cons.mp hmem with rfl | hmem'
    · rcases foldPush_append_state P (pushCandidate st lead) with ⟨k, hk, _⟩
      rcases pushCandidate_spec st lead h with ⟨⟨x, hx, hor⟩, heq⟩ | ⟨_, heq⟩
      · refine ⟨x, ?_, hor⟩
        rw [hstep, hk, heq]
        exact List.mem_append_left _ hx
      · refine ⟨lead, ?_, Or.inl rfl⟩
        rw [hstep, hk, heq]
        exact List.mem_append_left _ (by simp)
    · rw [hstep]
      exact ih (pushCandidate st q) (pushCandidate_inv st q h) lead hmem'

/-- First-seen wins: a lead of the stream is either kept itself, or a
candidate kept from strictly earlier in the stream (or the initial state)
collides with it. -/
theorem foldPush_first_wins (pre : List ImageCandidate) :
    ∀ (st : AggState) (lead : ImageCandidate) (suf : List ImageCandidate),
      AggInv st →
      lead ∈ (foldPush st (pre ++ lead :: suf)).candidates ∨
      ∃ x, x ∈ st.candidates ++ pre ∧
        x ∈ (foldPush st (pre ++ lead :: suf)).candidates ∧
        (x.image_url = lead.image_url ∨ x.title = lead.title) := by
  induction pre with
  | nil =>
    intro st lead suf h
    have hstep : foldPush st ([] ++ lead :: suf) =
        foldPush (pushCandidate st lead) suf := rfl
    rcases foldPush_append_state suf (pushCandidate st lead) with ⟨k, hk, _⟩
    rcases pushCandidate_spec st lead h with ⟨⟨x, hx, hor⟩, heq⟩ | ⟨_, heq⟩
    · right
      refine ⟨x, by simpa using hx, ?_, hor⟩
      rw [hstep, hk, heq]
      exact List.mem_append_left _ hx
    · left
      rw [hstep, hk, heq]
      exact List.mem_append_left _ (by simp)
  | cons q pre ih =>
    intro st lead suf h
    have hstep : foldPush st ((q :: pre) ++ lead :: suf) =
        foldPush (pushCandidate st q) (pre ++ lead :: suf) := rfl
    rcases ih (pushCandidate st q) lead suf (pushCandidate_inv st q h) with
      hl | ⟨x, hx1, hx2, hx3⟩
    · left; rw [hstep]; exact hl
    · right
      refine ⟨x, ?_, by rw [hstep]; exact hx2, hx3⟩
      rcases pushCandidate_spec st q h with ⟨_, heq⟩ | ⟨_, heq⟩ <;> rw [heq] at hx1
      · rcases List.mem_append.mp hx1 with h1 | h1
        · exact List.mem_append_left _ h1
        · exact List.mem_append_right _ (List.mem_cons_of_mem q h1)
      · rcases List.mem_append.mp hx1 with h1 | h1
        · rcases List.mem_append.mp h1 with h2 | h2
          · exact List.mem_append_left _ h2
          · exact List.mem_append_right _
              (List.mem_singleton.mp h2 ▸ List.mem_cons_self q pre)
        · exact List.mem_append_right _ (List.mem_cons_of_mem q h1)

theorem processLeads_eq_foldPush (via : Bool) (leads : List ImageCandidate)
    (st : AggState) :
    processLeads via st leads = foldPush st (okLeads via leads) := by
  induction leads generalizing st with
  | nil => rfl
  | cons q leads ih =>
    cases via with
    | false =>
      show processLeads false (pushCandidate st q) leads = _
      rw [ih]
      rfl
    | true =>
      rcases hvc : verifyWithCommons q with e | c
      · simp [processLeads, okLeads, hvc, foldPush]
      · simp only [processLeads, okLeads, hvc, if_true]
        rw [ih]
        rfl

theorem aggregate_eq_foldPush (blocks : List SourceBlock) :
    aggregate blocks = foldPush ⟨[], [], []⟩ (processedLeads blocks) := by
  suffices h : ∀ st, blocks.foldl (fun st b => processLeads b.viaCommons st b.leads) st =
      foldPush st (processedLeads blocks) from h _
  induction blocks with
  | nil => intro st; rfl
  | cons b bs ih =>
    intro st
    show bs.foldl _ (processLeads b.viaCommons st b.leads) = _
    rw [processLeads_eq_foldPush, ih]
    show foldPush (foldPush st (okLeads b.viaCommons b.leads)) (processedLeads bs) = _
    unfold processedLeads foldPush
    rw [List.map_cons, List.flatten_cons, List.foldl_append]

/-- C6: after aggregation no two kept candidates share an image_url and no
two share a title; the kept candidates are a sublist of the pushed stream
(objects and order preserved); and a pushed lead is either kept itself or
collides with a candidate kept from strictly earlier in the stream. -/
theorem aggregation_dedup (blocks : List SourceBlock) :
    ((aggregate blocks).candidates.Pairwise distinctKeys) ∧
    (aggregate blocks).candidates.Sublist (processedLeads blocks) ∧
    (∀ pre lead suf, processedLeads blocks = pre ++ lead :: suf →
      lead ∈ (aggregate blocks).candidates ∨
      ∃ x ∈ pre, x ∈ (aggregate blocks).candidates ∧
        (x.image_url = lead.image_url ∨ x.title = lead.title)) := by
  have hinv : AggInv ⟨[], [], []⟩ := ⟨rfl, rfl⟩
  rw [aggregate_eq_foldPush]
  refine ⟨foldPush_pairwise _ _ hinv (by simp), ?_, ?_⟩
  · rcases foldPush_append_state (processedLeads blocks) ⟨[], [], []⟩ with ⟨k, hk, hs⟩
    rw [hk]
    simpa using hs
  · intro pre lead suf hdec
    rw [hdec]
    rcases foldPush_first_wins pre ⟨[], [], []⟩ lead suf hinv with hl | ⟨x, hx1, hx2, hx3⟩
    · exact Or.inl hl
    · exact Or.inr ⟨x, by simpa using hx1, hx2, hx3⟩

/-- Witness for C6 at a concrete pair of leads sharing a title. -/
theorem aggregation_dedup_witness :
    dupTitleLead ∈ (aggregate dupBlocks).candidates ∨
    ∃ x ∈ [bingLead], x ∈ (aggregate dupBlocks).candidates ∧
      (x.image_url = dupTitleLead.image_url ∨ x.title = dupTitleLead.title) :=
  (aggregation_dedup dupBlocks).2.2 [bingLead] dupTitleLead [] rfl

/-! ### Strict walk lemmas -/

/-- Every anchor produced after a last accepted year lies at least the
minimum gap above it. -/
theorem strictLoop_bound (b : Int) (l : List ImageCandidate) :
    ∀ (ly : Int) (cnt : Nat), ∀ a ∈ strictLoop b l (some ly) cnt, ly + 3 ≤ a.year := by
  induction l with
  | nil => intro ly cnt a ha; cases ha
  | cons c rest ih =>
    intro ly cnt a ha
    simp only [strictLoop] at ha
    by_cases hskip : vdYear c - ly < 3
    · rw [if_pos hskip] at ha
      exact ih ly cnt a ha
    · rw [if_neg hskip] at ha
      by_cases hcnt : cnt + 1 ≥ 8
      · rw [if_pos hcnt] at ha
        rcases List.mem_singleton.mp ha with rfl
        simp only [mkAnchor]
        omega
      · rw [if_neg hcnt] at ha
        rcases List.mem_cons.mp ha with rfl | ha'
        · simp only [mkAnchor]; omega
        · have := ih (vdYear c) (cnt + 1) a ha'
          omega

/-- Adjacent anchors of the strict walk are at least the minimum gap
apart (regardless of sortedness: the signed check enforces it). -/
theorem strictLoop_chain (b : Int) (l : List ImageCandidate) :
    ∀ (last : Option Int) (cnt : Nat),
      List.Chain' (fun a a' : Anchor => a.year + 3 ≤ a'.year)
        (strictLoop b l last cnt) := by
  induction l with
  | nil => intro last cnt; simp [strictLoop]
  | cons c rest ih =>
    intro last cnt
    simp only [strictLoop]
    cases last with
    | some ly =>
      dsimp only
      by_cases hskip : vdYear c - ly < 3
      · rw [if_pos hskip]; exact ih (some ly) cnt
      · rw [if_neg hskip]
        by_cases hcnt : cnt + 1 ≥ 8
        · rw [if_pos hcnt]; simp
        · rw [if_neg hcnt]
          refine List.chain'_cons'.mpr ⟨?_, ih (some (vdYear c)) (cnt + 1)⟩
          intro a' ha'
          have := strictLoop_bound b rest (vdYear c) (cnt + 1) a'
            (List.mem_of_mem_head? ha')
          simpa [mkAnchor] using this
    | none =>
      dsimp only
      by_cases hcnt : cnt + 1 ≥ 8
      · rw [if_pos hcnt]; simp
      · rw [if_neg hcnt]
        refine List.chain'_cons'.mpr ⟨?_, ih (some (vdYear c)) (cnt + 1)⟩
        intro a' ha'
        have := strictLoop_bound b rest (vdYear c) (cnt + 1) a'
          (List.mem_of_mem_head? ha')
        simpa [mkAnchor] using this

/-- The strict walk stops at the anchor cap. -/
theorem strictLoop_length (b : Int) (l : List ImageCandidate) :
    ∀ (last : Option Int) (cnt : Nat), cnt ≤ 7 →
      (strictLoop b l last cnt).length ≤ 8 - cnt := by
  induction l with
  | nil => intro last cnt _; simp [strictLoop]
  | cons c rest ih =>
    intro last cnt hcnt
    simp only [strictLoop]
    cases last with
    | some ly =>
      dsimp only
      by_cases hskip : vdYear c - ly < 3
      · rw [if_pos hskip]; exact ih (some ly) cnt hcnt
      · rw [if_neg hskip]
        by_cases hstop : cnt + 1 ≥ 8
        · rw [if_pos hstop]; simp; omega
        · rw [if_neg hstop]
          have := ih (some (vdYear c)) (cnt + 1) (by omega)
          simp only [List.length_cons]
          omega
    | none =>
      dsimp only
      by_cases hstop : cnt + 1 ≥ 8
      · rw [if_pos hstop]; simp; omega
      · rw [if_neg hstop]
        have := ih (some (vdYear c)) (cnt + 1) (by omega)
        simp only [List.length_cons]
        omega

/-! ### Relaxed walk lemmas -/

/-- Every produced anchor lies at least step away from every year that was
already used when the walk reached it. -/
theorem relaxedLoop_far (b step : Int) (l : List ImageCandidate) :
    ∀ (used : List Int) (cnt : Nat), ∀ a ∈ relaxedLoop b step l used cnt,
      ∀ uy ∈ used, step ≤ |a.year - uy| := by
  induction l with
  | nil => intro used cnt a ha; cases ha
  | cons c rest ih =>
    intro used cnt a ha uy huy
    simp only [relaxedLoop] at ha
    by_cases hskip : used.any (fun u => |vdYear c - u| < step) = true
    · rw [if_pos hskip] at ha
      exact ih used cnt a ha uy huy
    · rw [if_neg hskip] at ha
      have hfar : ∀ u ∈ used, step ≤ |vdYear c - u| := by
        intro u hu
        by_contra hlt
        exact hskip (List.any_eq_true.mpr ⟨u, hu, by simpa using not_le.mp hlt⟩)
      by_cases hstop : cnt + 1 ≥ 8
      · rw [if_pos hstop] at ha
        rcases List.mem_singleton.mp ha with rfl
        simpa [mkAnchor] using hfar uy huy
      · rw [if_neg hstop] at ha
        rcases List.mem_cons.mp ha with rfl | ha'
        · simpa [mkAnchor] using hfar uy huy
        · exact ih (used ++ [vdYear c]) (cnt + 1) a ha' uy (List.mem_append_left _ huy)

/-- With a year-sorted input, every produced anchor year strictly exceeds
every already used year. -/
theorem relaxedLoop_gt_used (b step : Int) (hstep : 1 ≤ step) (l : List ImageCandidate) :
    ∀ (used : List Int) (cnt : Nat),
      List.Pairwise candLE l →
      (∀ uy ∈ used, ∀ c ∈ l, uy ≤ vdYear c) →
      ∀ a ∈ relaxedLoop b step l used cnt, ∀ uy ∈ used, uy < a.year := by
  induction l with
  | nil => intro used cnt _ _ a ha; cases ha
  | cons c rest ih =>
    intro used cnt hsort hle a ha uy huy
    rcases List.pairwise_cons.mp hsort with ⟨hchead, hrest⟩
    simp only [relaxedLoop] at ha
    by_cases hskip : used.any (fun u => |vdYear c - u| < step) = true
    · rw [if_pos hskip] at ha
      exact ih used cnt hrest
        (fun u hu c' hc' => hle u hu c' (List.mem_cons_of_mem c hc')) a ha uy huy
    · rw [if_neg hskip] at ha
      have hfar : ∀ u ∈ used, step ≤ |vdYear c - u| := by
        intro u hu
        by_contra hlt
        exact hskip (List.any_eq_true.mpr ⟨u, hu, by simpa using not_le.mp hlt⟩)
      have hylt : uy < vdYear c := by
        have h1 : uy ≤ vdYear c := hle uy huy c (List.mem_cons_self c rest)
        have h2 : step ≤ |vdYear c - uy| := hfar uy huy
        rcases lt_or_eq_of_le h1 with h | h
        · exact h
        · rw [← h, sub_self, abs_zero] at h2
          omega
      have hle' : ∀ u ∈ used ++ [vdYear c], ∀ c' ∈ rest, u ≤ vdYear c' := by
        intro u hu c' hc'
        rcases List.mem_append.mp hu with hu1 | hu1
        · exact hle u hu1 c' (List.mem_cons_of_mem c hc')
        · rw [List.mem_singleton.mp hu1]
          exact hchead c' hc'
      by_cases hstop : cnt + 1 ≥ 8
      · rw [if_pos hstop] at ha
        rcases List.mem_singleton.mp ha with rfl
        simpa [mkAnchor] using hylt
      · rw [if_neg hstop] at ha
        rcases List.mem_cons.mp ha with rfl | ha'
        · simpa [mkAnchor] using hylt
        · exact ih (used ++ [vdYear c]) (cnt + 1) hrest hle' a ha' uy
            (List.mem_append_left _ huy)

/-- With a year-sorted input the relaxed walk is strictly increasing. -/
theorem relaxedLoop_pairwise (b step : Int) (hstep : 1 ≤ step) (l : List ImageCandidate) :
    ∀ (used : List Int) (cnt : Nat),
      List.Pairwise candLE l →
      (∀ uy ∈ used, ∀ c ∈ l, uy ≤ vdYear c) →
      (relaxedLoop b step l used cnt).Pairwise
        (fun a a' : Anchor => a.year < a'.year) := by
  induction l with
  | nil => intro used cnt _ _; simp [relaxedLoop]
  | cons c rest ih =>
    intro used cnt hsort hle
    rcases List.pairwise_cons.mp hsort with ⟨hchead, hrest⟩
    simp only [relaxedLoop]
    by_cases hskip : used.any (fun u => |vdYear c - u| < step) = true
    · rw [if_pos hskip]
      exact ih used cnt hrest
        (fun u hu c' hc' => hle u hu c' (List.mem_cons_of_mem c hc'))
    · rw [if_neg hskip]
      have hle' : ∀ u ∈ used ++ [vdYear c], ∀ c' ∈ rest, u ≤ vdYear c' := by
        intro u hu c' hc'
        rcases List.mem_append.mp hu with hu1 | hu1
        · exact hle u hu1 c' (List.mem_cons_of_mem c hc')
        · rw [List.mem_singleton.mp hu1]
          exact hchead c' hc'
      by_cases hstop : cnt + 1 ≥ 8
      · rw [if_pos hstop]; simp
      · rw [if_neg hstop]
        refine List.pairwise_cons.mpr ⟨?_, ih (used ++ [vdYear c]) (cnt + 1) hrest hle'⟩
        intro a' ha'
        have := relaxedLoop_gt_used b step hstep rest (used ++ [vdYear c]) (cnt + 1)
          hrest hle' a' ha' (vdYear c)
          (List.mem_append_right _ (List.mem_singleton_self _))
        simpa [mkAnchor] using this

/-- Any two anchors of the relaxed walk are at least step apart. -/
theorem relaxedLoop_pairwise_far (b step : Int) (l : List ImageCandidate) :
    ∀ (used : List Int) (cnt : Nat),
      (relaxedLoop b step l used cnt).Pairwise
        (fun a a' : Anchor => step ≤ |a'.year - a.year|) := by
  induction l with
  | nil => intro used cnt; simp [relaxedLoop]
  | cons c rest ih =>
    intro used cnt
    simp only [relaxedLoop]
    by_cases hskip : used.any (fun u => |vdYear c - u| < step) = true
    · rw [if_pos hskip]; exact ih used cnt
    · rw [if_neg hskip]
      by_cases hstop : cnt + 1 ≥ 8
      · rw [if_pos hstop]; simp
      · rw [if_neg hstop]
        refine List.pairwise_cons.mpr ⟨?_, ih (used ++ [vdYear c]) (cnt + 1)⟩
        intro a' ha'
        have := relaxedLoop_far b step rest (used ++ [vdYear c]) (cnt + 1) a' ha'
          (vdYear c) (List.mem_append_right _ (List.mem_singleton_self _))
        simpa [mkAnchor] using this

/-- The relaxed walk stops at the anchor cap. -/
theorem relaxedLoop_length (b step : Int) (l : List ImageCandidate) :
    ∀ (used : List Int) (cnt : Nat), cnt ≤ 7 →
      (relaxedLoop b step l used cnt).length ≤ 8 - cnt := by
  induction l with
  | nil => intro used cnt _; simp [relaxedLoop]
  | cons c rest ih =>
    intro used cnt hcnt
    simp only [relaxedLoop]
    by_cases hskip : used.any (fun u => |vdYear c - u| < step) = true
    · rw [if_pos hskip]; exact ih used cnt hcnt
    · rw [if_neg hskip]
      by_cases hstop : cnt + 1 ≥ 8
      · rw [if_pos hstop]; simp; omega
      · rw [if_neg hstop]
        have := ih (used ++ [vdYear c]) (cnt + 1) (by omega)
        simp only [List.length_cons]
        omega

/-- When the strict walk reaches the minimum count, select_anchors returns
its result. -/
theorem selectAnchors_eq_strict (m : ImageManifest) (b : Int)
    (hne : (eligibleCandidates m).isEmpty = false)
    (h5 : ¬(strictOf m b).length < 5) :
    selectAnchors m b = .ok (strictOf m b) := by
  unfold strictOf sortedEligible at h5 ⊢
  unfold selectAnchors
  rw [if_neg (by simp [hne])]
  rw [if_neg h5]

/-- C4: whenever strict selection is what select_anchors returns (the greedy
walk accepted at least the minimum count of anchors), adjacent anchors are
at least the minimum year gap apart and at most the maximum count of
anchors is returned. -/
theorem strict_selection_spacing (m : ImageManifest) (b : Int)
    (h5 : 5 ≤ (strictOf m b).length) :
    selectAnchors m b = .ok (strictOf m b) ∧
    List.Chain' (fun a a' : Anchor => 3 ≤ a'.year - a.year) (strictOf m b) ∧
    (strictOf m b).length ≤ 8 := by
  have hne : (eligibleCandidates m).isEmpty = false := by
    rcases he : eligibleCandidates m with _ | ⟨c, cs⟩
    · exfalso
      have hmt : strictOf m b = [] := by
        unfold strictOf sortedEligible
        rw [he]
        rfl
      rw [hmt] at h5
      simp at h5
    · rfl
  refine ⟨selectAnchors_eq_strict m b hne (by omega), ?_, ?_⟩
  · exact (strictLoop_chain b _ none 0).imp (fun h => by omega)
  · simpa using strictLoop_length b _ none 0 (by omega)

/-- Witness for C4 at the concrete seven-year scenario. -/
theorem strict_selection_spacing_witness :
    selectAnchors manifestSeven 1974 = .ok (strictOf manifestSeven 1974) ∧
    List.Chain' (fun a a' : Anchor => 3 ≤ a'.year - a.year)
      (strictOf manifestSeven 1974) ∧
    (strictOf manifestSeven 1974).length ≤ 8 :=
  strict_selection_spacing manifestSeven 1974 (by decide)

/-- C5: whatever path select_anchors returns through, the anchors are
strictly increasing in year. -/
theorem anchors_strictly_increasing (m : ImageManifest) (b : Int) (l : List Anchor)
    (h : selectAnchors m b = .ok l) :
    l.Pairwise (fun a a' : Anchor => a.year < a'.year) := by
  unfold selectAnchors at h
  dsimp only at h
  split at h
  · simp at h
  · split at h
    · unfold relaxedSelection at h
      dsimp only at h
      split at h
      · simp at h
      · simp at h
        rw [← h]
        refine relaxedLoop_pairwise b _ (le_max_left 1 _) _ [] 0 ?_ ?_
        · exact List.Pairwise.filter _ (List.sorted_insertionSort candLE _)
        · intro uy huy; cases huy
    · simp at h
      rw [← h]
      have hch : List.Chain' (fun a a' : Anchor => a.year < a'.year)
          (strictLoop b (List.insertionSort candLE (eligibleCandidates m)) none 0) :=
        (strictLoop_chain b (List.insertionSort candLE (eligibleCandidates m))
          none 0).imp (fun h => by omega)
      have htr : IsTrans Anchor (fun a a' : Anchor => a.year < a'.year) :=
        ⟨fun _ _ _ h1 h2 => lt_trans h1 h2⟩
      exact (@List.chain'_iff_pairwise _ _ htr _).mp hch

/-- Witness for C5 at the concrete seven-year scenario. -/
theorem anchors_strictly_increasing_witness :
    List.Pairwise (fun a a' : Anchor => a.year < a'.year)
      [⟨1995, 21, "p1", "wikimedia", true⟩, ⟨1998, 24, "p2", "wikimedia", true⟩,
       ⟨2001, 27, "p3", "wikimedia", true⟩, ⟨2004, 30, "p4", "wikimedia", true⟩,
       ⟨2007, 33, "p5", "wikimedia", true⟩, ⟨2010, 36, "p6", "wikimedia", true⟩,
       ⟨2024, 50, "p7", "wikimedia", true⟩] :=
  anchors_strictly_increasing manifestSeven 1974 _ rfl

/-- Counterexample to C3: with two eligible candidates listed later-year
first, the relaxed fallback walks the year-sorted list (the strict phase
sorted it in place), not the original manifest order the claim describes:
the two results disagree. -/
theorem relaxed_original_order_counterexample :
    (strictOf manifestTwo 1970).length < 5 ∧
    selectAnchors manifestTwo 1970 =
      .ok [⟨2000, 30, "p2", "wikimedia", true⟩, ⟨2005, 35, "p1", "wikimedia", true⟩] ∧
    relaxedSelectionSpecOrder manifestTwo 1970 =
      .ok [⟨2005, 35, "p1", "wikimedia", true⟩, ⟨2000, 30, "p2", "wikimedia", true⟩] ∧
    selectAnchors manifestTwo 1970 ≠ relaxedSelectionSpecOrder manifestTwo 1970 :=
  ⟨by decide, rfl, rfl, by decide⟩

/-- When the strict walk stays below the minimum count, select_anchors
falls back to the relaxed selection over the sorted list. -/
theorem selectAnchors_eq_relaxed (m : ImageManifest) (b : Int)
    (hne : (eligibleCandidates m).isEmpty = false)
    (h5 : (strictOf m b).length < 5) :
    selectAnchors m b = relaxedSelection (sortedEligible m) b := by
  unfold strictOf sortedEligible at h5
  unfold selectAnchors sortedEligible
  rw [if_neg (by simp [hne])]
  rw [if_pos h5]

/-- C3 as amended: when strict selection stays below the minimum count, the
fallback fails with the year-diversity error if fewer than two distinct
years exist; otherwise it walks the candidates in year-sorted order (the
list the strict phase sorted in place, not the original pre-sort order)
with step = max(1, (max_year - min_year) / 8), accepts only candidates
whose year is at least step from every already accepted year, and stops at
8 anchors. -/
theorem relaxed_fallback_sorted_order (m : ImageManifest) (b : Int)
    (hne : eligibleCandidates m ≠ [])
    (h5 : (strictOf m b).length < 5) :
    ((yearsOf m).length < 2 →
      selectAnchors m b = .error .insufficientYearDiversity) ∧
    (¬(yearsOf m).length < 2 →
      selectAnchors m b = .ok (relaxedLoop b (stepOf m) (validOf m) [] 0) ∧
      1 ≤ stepOf m ∧
      (relaxedLoop b (stepOf m) (validOf m) [] 0).length ≤ 8 ∧
      (relaxedLoop b (stepOf m) (validOf m) [] 0).Pairwise
        (fun a a' : Anchor => stepOf m ≤ |a'.year - a.year|)) := by
  have hne' : (eligibleCandidates m).isEmpty = false := by
    rcases he : eligibleCandidates m with _ | ⟨c, cs⟩
    · exact absurd he hne
    · rfl
  have hrel : selectAnchors m b = relaxedSelection (sortedEligible m) b :=
    selectAnchors_eq_relaxed m b hne' h5
  constructor
  · intro h2
    rw [hrel]
    unfold relaxedSelection
    dsimp only
    unfold yearsOf validOf at h2
    rw [if_pos h2]
  · intro h2
    refine ⟨?_, le_max_left 1 _, ?_, relaxedLoop_pairwise_far b _ _ [] 0⟩
    · rw [hrel]
      unfold relaxedSelection
      dsimp only
      unfold yearsOf validOf at h2
      rw [if_neg h2]
      rfl
    · simpa using relaxedLoop_length b (stepOf m) (validOf m) [] 0 (by omega)

/-- Witness for the amended C3 at the two-candidate manifest. -/
theorem relaxed_fallback_sorted_order_witness :
    selectAnchors manifestTwo 1970 =
      .ok (relaxedLoop 1970 (stepOf manifestTwo) (validOf manifestTwo) [] 0) ∧
    1 ≤ stepOf manifestTwo ∧
    (relaxedLoop 1970 (stepOf manifestTwo) (validOf manifestTwo) [] 0).length ≤ 8 ∧
    (relaxedLoop 1970 (stepOf manifestTwo) (validOf manifestTwo) [] 0).Pairwise
      (fun a a' : Anchor => stepOf manifestTwo ≤ |a'.year - a.year|) :=
  (relaxed_fallback_sorted_order manifestTwo 1970 (by decide) (by decide)).2 (by decide)

/-! ### Date normalization: characterisation of the accepted shapes (C7) -/

theorem isDigitCh_digitChar_mod (n : Nat) : isDigitCh (Nat.digitChar (n % 10)) = true := by
  have h : n % 10 < 10 := Nat.mod_lt _ (by omega)
  generalize n % 10 = k at h ⊢
  interval_cases k <;> rfl

theorem digitVal_digitChar_mod (n : Nat) : digitVal (Nat.digitChar (n % 10)) = n % 10 := by
  have h : n % 10 < 10 := Nat.mod_lt _ (by omega)
  generalize n % 10 = k at h ⊢
  interval_cases k <;> rfl

theorem isPySpace_digitChar_mod (n : Nat) : isPySpace (Nat.digitChar (n % 10)) = false := by
  have h : n % 10 < 10 := Nat.mod_lt _ (by omega)
  generalize n % 10 = k at h ⊢
  interval_cases k <;> rfl

theorem T_ne_digitChar_mod (n : Nat) : ¬('T' : Char) = Nat.digitChar (n % 10) := by
  have h : n % 10 < 10 := Nat.mod_lt _ (by omega)
  generalize n % 10 = k at h ⊢
  interval_cases k <;> decide

theorem space_ne_digitChar_mod (n : Nat) : ¬(' ' : Char) = Nat.digitChar (n % 10) := by
  have h : n % 10 < 10 := Nat.mod_lt _ (by omega)
  generalize n % 10 = k at h ⊢
  interval_cases k <;> decide

theorem digitChar_mod_ne_space (n : Nat) : ¬Nat.digitChar (n % 10) = ' ' := by
  have h : n % 10 < 10 := Nat.mod_lt _ (by omega)
  generalize n % 10 = k at h ⊢
  interval_cases k <;> decide

theorem digitChar_mod_ne_colon (n : Nat) : ¬Nat.digitChar (n % 10) = ':' := by
  have h : n % 10 < 10 := Nat.mod_lt _ (by omega)
  generalize n % 10 = k at h ⊢
  interval_cases k <;> decide

theorem parseMon_pad2 (m : Nat) (h1 : 1 ≤ m) (h2 : m ≤ 12) (rest : List Char) :
    parseMon (pad2 m ++ rest) = some (m, rest) := by
  interval_cases m <;> rfl

theorem parseDay_pad2 (d : Nat) (h1 : 1 ≤ d) (h2 : d ≤ 31) (rest : List Char) :
    parseDay (pad2 d ++ rest) = some (d, rest) := by
  interval_cases d <;> rfl

theorem parseDay_pad2_nil (d : Nat) (h1 : 1 ≤ d) (h2 : d ≤ 31) :
    parseDay (pad2 d) = some (d, []) := by
  interval_cases d <;> rfl

theorem parseHour_pad2 (h : Nat) (h2 : h ≤ 23) (rest : List Char) :
    parseHour (pad2 h ++ rest) = some (h, rest) := by
  interval_cases h <;> rfl

theorem parseMin_pad2 (mi : Nat) (h2 : mi ≤ 59) (rest : List Char) :
    parseMin (pad2 mi ++ rest) = some (mi, rest) := by
  interval_cases mi <;> rfl

theorem parseSec_pad2 (s : Nat) (h2 : s ≤ 59) :
    parseSec (pad2 s) = some (s, []) := by
  interval_cases s <;> rfl

theorem parseY4_pad4 (y : Nat) (hy : y ≤ 9999) (rest : List Char) :
    parseY4 (pad4 y ++ rest) = some (y, rest) := by
  simp only [pad4, List.cons_append, List.nil_append, parseY4,
    isDigitCh_digitChar_mod, Bool.and_self, if_true, digitVal_digitChar_mod]
  have he : ((y / 1000 % 10 * 10 + y / 100 % 10) * 10 + y / 10 % 10) * 10 + y % 10 = y := by
    omega
  rw [he]

theorem parseLit_cons (t : Char) (rest : List Char) : parseLit t (t :: rest) = some rest := by
  simp [parseLit]

theorem parseLit_ne (t c : Char) (h : c ≠ t) (rest : List Char) :
    parseLit t (c :: rest) = none := by
  simp [parseLit, h]

theorem daysInMonth_le_31 (y m : Nat) : daysInMonth y m ≤ 31 := by
  unfold daysInMonth
  repeat' split
  all_goals omega

theorem dtValid_true (y m d h mi s : Nat) (hy1 : 1 ≤ y) (hy : y ≤ 9999)
    (hm1 : 1 ≤ m) (hm : m ≤ 12) (hd1 : 1 ≤ d) (hd : d ≤ daysInMonth y m)
    (hh : h ≤ 23) (hmi : mi ≤ 59) (hs : s ≤ 59) :
    dtValid y m d h mi s = true := by
  unfold dtValid
  simp only [Bool.and_eq_true, decide_eq_true_eq]
  refine ⟨⟨⟨⟨⟨⟨⟨⟨hy1, hy⟩, hm1⟩, hm⟩, hd1⟩, hd⟩, hh⟩, hmi⟩, hs⟩

theorem strptimeDT_colon (y m d h mi s : Nat) (hy1 : 1 ≤ y) (hy : y ≤ 9999)
    (hm1 : 1 ≤ m) (hm : m ≤ 12) (hd1 : 1 ≤ d) (hd : d ≤ daysInMonth y m)
    (hh : h ≤ 23) (hmi : mi ≤ 59) (hs : s ≤ 59) :
    strptimeDT ':' (pad4 y ++ ':' :: (pad2 m ++ ':' :: (pad2 d ++ ' ' ::
      (pad2 h ++ ':' :: (pad2 mi ++ ':' :: pad2 s))))) = some ⟨y, m, d, h, mi, s⟩ := by
  have hd31 : d ≤ 31 := le_trans hd (daysInMonth_le_31 y m)
  unfold strptimeDT parseDateCore parseTimeCore
  rw [parseY4_pad4 y hy]
  dsimp only
  rw [parseLit_cons]
  dsimp only
  rw [parseMon_pad2 m hm1 hm]
  dsimp only
  rw [parseLit_cons]
  dsimp only
  rw [parseDay_pad2 d hd1 hd31]
  dsimp only
  rw [parseLit_cons]
  dsimp only
  rw [parseHour_pad2 h hh]
  dsimp only
  rw [parseLit_cons]
  dsimp only
  rw [parseMin_pad2 mi hmi]
  dsimp only
  rw [parseLit_cons]
  dsimp only
  rw [parseSec_pad2 s hs]
  dsimp only
  rw [dtValid_true y m d h mi s hy1 hy hm1 hm hd1 hd hh hmi hs]
  rfl

theorem strptimeDT_colon_on_dash (y : Nat) (hy : y ≤ 9999) (rest : List Char) :
    strptimeDT ':' (pad4 y ++ '-' :: rest) = none := by
  unfold strptimeDT parseDateCore
  rw [parseY4_pad4 y hy]
  dsimp only
  rw [parseLit_ne ':' '-' (by decide)]

theorem strptimeDT_dash (y m d h mi s : Nat) (hy1 : 1 ≤ y) (hy : y ≤ 9999)
    (hm1 : 1 ≤ m) (hm : m ≤ 12) (hd1 : 1 ≤ d) (hd : d ≤ daysInMonth y m)
    (hh : h ≤ 23) (hmi : mi ≤ 59) (hs : s ≤ 59) :
    strptimeDT '-' (pad4 y ++ '-' :: (pad2 m ++ '-' :: (pad2 d ++ ' ' ::
      (pad2 h ++ ':' :: (pad2 mi ++ ':' :: pad2 s))))) = some ⟨y, m, d, h, mi, s⟩ := by
  have hd31 : d ≤ 31 := le_trans hd (daysInMonth_le_31 y m)
  unfold strptimeDT parseDateCore parseTimeCore
  rw [parseY4_pad4 y hy]
  dsimp only
  rw [parseLit_cons]
  dsimp only
  rw [parseMon_pad2 m hm1 hm]
  dsimp only
  rw [parseLit_cons]
  dsimp only
  rw [parseDay_pad2 d hd1 hd31]
  dsimp only
  rw [parseLit_cons]
  dsimp only
  rw [parseHour_pad2 h hh]
  dsimp only
  rw [parseLit_cons]
  dsimp only
  rw [parseMin_pad2 mi hmi]
  dsimp only
  rw [parseLit_cons]
  dsimp only
  rw [parseSec_pad2 s hs]
  dsimp only
  rw [dtValid_true y m d h mi s hy1 hy hm1 hm hd1 hd hh hmi hs]
  rfl

theorem strptimeDT_dash_on_date (y m d : Nat) (hy : y ≤ 9999)
    (hm1 : 1 ≤ m) (hm : m ≤ 12) (hd1 : 1 ≤ d) (hd31 : d ≤ 31) :
    strptimeDT '-' (pad4 y ++ '-' :: (pad2 m ++ '-' :: pad2 d)) = none := by
  unfold strptimeDT parseDateCore
  rw [parseY4_pad4 y hy]
  dsimp only
  rw [parseLit_cons]
  dsimp only
  rw [parseMon_pad2 m hm1 hm]
  dsimp only
  rw [parseLit_cons]
  dsimp only
  rw [parseDay_pad2_nil d hd1 hd31]
  rfl

theorem strptimeD_date (y m d : Nat) (hy1 : 1 ≤ y) (hy : y ≤ 9999)
    (hm1 : 1 ≤ m) (hm : m ≤ 12) (hd1 : 1 ≤ d) (hd : d ≤ daysInMonth y m) :
    strptimeD (pad4 y ++ '-' :: (pad2 m ++ '-' :: pad2 d)) = some ⟨y, m, d, 0, 0, 0⟩ := by
  have hd31 : d ≤ 31 := le_trans hd (daysInMonth_le_31 y m)
  unfold strptimeD parseDateCore
  rw [parseY4_pad4 y hy]
  dsimp only
  rw [parseLit_cons]
  dsimp only
  rw [parseMon_pad2 m hm1 hm]
  dsimp only
  rw [parseLit_cons]
  dsimp only
  rw [parseDay_pad2_nil d hd1 hd31]
  dsimp only
  rw [dtValid_true y m d 0 0 0 hy1 hy hm1 hm hd1 hd (by omega) (by omega) (by omega)]
  rfl

theorem pyStrip_eq_self (l : List Char)
    (h1 : ∀ c, l.head? = some c → isPySpace c = false)
    (h2 : ∀ c, l.getLast? = some c → isPySpace c = false) :
    pyStrip l = l := by
  unfold pyStrip
  have hd : l.dropWhile isPySpace = l := by
    rcases l with _ | ⟨a, t⟩
    · rfl
    · have ha : isPySpace a = false := h1 a rfl
      simp [List.dropWhile_cons, ha]
  rw [hd]
  have hrev : l.reverse.dropWhile isPySpace = l.reverse := by
    rcases hr : l.reverse with _ | ⟨a, t⟩
    · rfl
    · have ha : isPySpace a = false := h2 a (by rw [List.getLast?_eq_head?_reverse, hr]; rfl)
      simp [List.dropWhile_cons, ha]
  rw [hrev, List.reverse_reverse]

theorem pyStrip_colonShape (y m d h mi s : Nat) :
    pyStrip (pad4 y ++ ':' :: (pad2 m ++ ':' :: (pad2 d ++ ' ' ::
      (pad2 h ++ ':' :: (pad2 mi ++ ':' :: pad2 s))))) =
    pad4 y ++ ':' :: (pad2 m ++ ':' :: (pad2 d ++ ' ' ::
      (pad2 h ++ ':' :: (pad2 mi ++ ':' :: pad2 s)))) := by
  apply pyStrip_eq_self
  · intro c hc
    simp [pad4, pad2] at hc
    rw [← hc]
    exact isPySpace_digitChar_mod _
  · intro c hc
    simp [pad4, pad2] at hc
    rw [← hc]
    exact isPySpace_digitChar_mod _

theorem pyStrip_dashDTShape (y m d h mi s : Nat) :
    pyStrip (pad4 y ++ '-' :: (pad2 m ++ '-' :: (pad2 d ++ ' ' ::
      (pad2 h ++ ':' :: (pad2 mi ++ ':' :: pad2 s))))) =
    pad4 y ++ '-' :: (pad2 m ++ '-' :: (pad2 d ++ ' ' ::
      (pad2 h ++ ':' :: (pad2 mi ++ ':' :: pad2 s)))) := by
  apply pyStrip_eq_self
  · intro c hc
    simp [pad4, pad2] at hc
    rw [← hc]
    exact isPySpace_digitChar_mod _
  · intro c hc
    simp [pad4, pad2] at hc
    rw [← hc]
    exact isPySpace_digitChar_mod _

theorem pyStrip_dashDShape (y m d : Nat) :
    pyStrip (pad4 y ++ '-' :: (pad2 m ++ '-' :: pad2 d)) =
    pad4 y ++ '-' :: (pad2 m ++ '-' :: pad2 d) := by
  apply pyStrip_eq_self
  · intro c hc
    simp [pad4, pad2] at hc
    rw [← hc]
    exact isPySpace_digitChar_mod _
  · intro c hc
    simp [pad4, pad2] at hc
    rw [← hc]
    exact isPySpace_digitChar_mod _

theorem natDigitsAux_small (f n : Nat) (hf : 1 ≤ f) (hn : n < 10) :
    natDigitsAux f n = [Nat.digitChar n] := by
  cases f with
  | zero => omega
  | succ f => simp [natDigitsAux, hn]

theorem natDigitsAux_step (f n : Nat) (hf : 1 ≤ f) (hn : 10 ≤ n) :
    natDigitsAux f n = natDigitsAux (f - 1) (n / 10) ++ [Nat.digitChar (n % 10)] := by
  cases f with
  | zero => omega
  | succ f =>
    have hx : ¬n < 10 := by omega
    simp [natDigitsAux, hx]

theorem natDigits_eq_pad4 (y : Nat) (h1 : 1000 ≤ y) (h2 : y ≤ 9999) :
    natDigits y = pad4 y := by
  unfold natDigits
  rw [natDigitsAux_step (y + 1) y (by omega) (by omega)]
  rw [natDigitsAux_step (y + 1 - 1) (y / 10) (by omega) (by omega)]
  rw [natDigitsAux_step (y + 1 - 1 - 1) (y / 10 / 10) (by omega) (by omega)]
  rw [natDigitsAux_small (y + 1 - 1 - 1 - 1) (y / 10 / 10 / 10) (by omega) (by omega)]
  have e1 : y / 10 / 10 / 10 = y / 1000 % 10 := by omega
  have e2 : y / 10 / 10 % 10 = y / 100 % 10 := by omega
  rw [e1, e2]
  simp [pad4]

theorem colonShape_ne_empty (y m d h mi s : Nat) : colonDTShape y m d h mi s ≠ "" := by
  intro hcon
  have hdata := congrArg String.data hcon
  simp [colonDTShape, pad4] at hdata

theorem dashDTShape_ne_empty (y m d h mi s : Nat) : dashDTShape y m d h mi s ≠ "" := by
  intro hcon
  have hdata := congrArg String.data hcon
  simp [dashDTShape, pad4] at hdata

theorem dashDShape_ne_empty (y m d : Nat) : dashDShape y m d ≠ "" := by
  intro hcon
  have hdata := congrArg String.data hcon
  simp [dashDShape, pad4] at hdata

theorem normalizeExif_colonShape (y m d h mi s : Nat) (hy1 : 1000 ≤ y) (hy : y ≤ 9999)
    (hm1 : 1 ≤ m) (hm : m ≤ 12) (hd1 : 1 ≤ d) (hd : d ≤ daysInMonth y m)
    (hh : h ≤ 23) (hmi : mi ≤ 59) (hs : s ≤ 59) :
    normalizeExifDatetime (colonDTShape y m d h mi s) = some (dashDShape y m d) := by
  unfold normalizeExifDatetime
  rw [if_neg (colonShape_ne_empty y m d h mi s)]
  unfold colonDTShape
  dsimp only
  rw [pyStrip_colonShape]
  rw [strptimeDT_colon y m d h mi s (by omega) hy hm1 hm hd1 hd hh hmi hs]
  dsimp only
  unfold fmtYmd dashDShape
  rw [natDigits_eq_pad4 y hy1 hy]

theorem normalizeExif_dashDTShape (y m d h mi s : Nat) (hy1 : 1000 ≤ y) (hy : y ≤ 9999)
    (hm1 : 1 ≤ m) (hm : m ≤ 12) (hd1 : 1 ≤ d) (hd : d ≤ daysInMonth y m)
    (hh : h ≤ 23) (hmi : mi ≤ 59) (hs : s ≤ 59) :
    normalizeExifDatetime (dashDTShape y m d h mi s) = some (dashDShape y m d) := by
  unfold normalizeExifDatetime
  rw [if_neg (dashDTShape_ne_empty y m d h mi s)]
  unfold dashDTShape
  dsimp only
  rw [pyStrip_dashDTShape]
  rw [strptimeDT_colon_on_dash y hy]
  rw [strptimeDT_dash y m d h mi s (by omega) hy hm1 hm hd1 hd hh hmi hs]
  dsimp only
  unfold fmtYmd dashDShape
  rw [natDigits_eq_pad4 y hy1 hy]

theorem normalizeExif_dashDShape (y m d : Nat) (hy1 : 1000 ≤ y) (hy : y ≤ 9999)
    (hm1 : 1 ≤ m) (hm : m ≤ 12) (hd1 : 1 ≤ d) (hd : d ≤ daysInMonth y m) :
    normalizeExifDatetime (dashDShape y m d) = some (dashDShape y m d) := by
  have hd31 : d ≤ 31 := le_trans hd (daysInMonth_le_31 y m)
  unfold normalizeExifDatetime
  rw [if_neg (dashDShape_ne_empty y m d)]
  unfold dashDShape
  dsimp only
  rw [pyStrip_dashDShape]
  rw [strptimeDT_colon_on_dash y hy]
  rw [strptimeDT_dash_on_date y m d hy hm1 hm hd1 hd31]
  rw [strptimeD_date y m d (by omega) hy hm1 hm hd1 hd]
  dsimp only
  unfold fmtYmd
  rw [natDigits_eq_pad4 y hy1 hy]

theorem extmeta_colonShape (y m d h mi s : Nat) :
    extmetaNormalizeValue (colonDTShape y m d h mi s) = some (dashDShape y m d) := by
  unfold extmetaNormalizeValue colonDTShape
  dsimp only
  rw [pyStrip_colonShape]
  have hT : splitHead 'T' (pad4 y ++ ':' :: (pad2 m ++ ':' :: (pad2 d ++ ' ' ::
      (pad2 h ++ ':' :: (pad2 mi ++ ':' :: pad2 s))))) =
      pad4 y ++ ':' :: (pad2 m ++ ':' :: (pad2 d ++ ' ' ::
      (pad2 h ++ ':' :: (pad2 mi ++ ':' :: pad2 s)))) := by
    unfold splitHead
    rw [if_neg ?hcond]
    case hcond =>
      simp [pad4, pad2, T_ne_digitChar_mod]
  rw [hT]
  have hSp : splitHead ' ' (pad4 y ++ ':' :: (pad2 m ++ ':' :: (pad2 d ++ ' ' ::
      (pad2 h ++ ':' :: (pad2 mi ++ ':' :: pad2 s))))) =
      pad4 y ++ ':' :: (pad2 m ++ ':' :: pad2 d) := by
    unfold splitHead
    rw [if_pos ?hc]
    case hc =>
      simp [pad4, pad2, space_ne_digitChar_mod]
    have htw : (pad4 y ++ ':' :: (pad2 m ++ ':' :: (pad2 d ++ ' ' ::
        (pad2 h ++ ':' :: (pad2 mi ++ ':' :: pad2 s))))).takeWhile (· ≠ ' ') =
        pad4 y ++ ':' :: (pad2 m ++ ':' :: pad2 d) := by
      simp [pad4, pad2, List.takeWhile_cons, digitChar_mod_ne_space]
    rw [htw]
    apply pyStrip_eq_self
    · intro c hc
      simp [pad4, pad2] at hc
      rw [← hc]
      exact isPySpace_digitChar_mod _
    · intro c hc
      simp [pad4, pad2] at hc
      rw [← hc]
      exact isPySpace_digitChar_mod _
  rw [hSp]
  simp [pad4, pad2, digitChar_mod_ne_colon, dashDShape]

theorem extmeta_dashDTShape (y m d h mi s : Nat) :
    extmetaNormalizeValue (dashDTShape y m d h mi s) = some (dashDShape y m d) := by
  unfold extmetaNormalizeValue dashDTShape
  dsimp only
  rw [pyStrip_dashDTShape]
  have hT : splitHead 'T' (pad4 y ++ '-' :: (pad2 m ++ '-' :: (pad2 d ++ ' ' ::
      (pad2 h ++ ':' :: (pad2 mi ++ ':' :: pad2 s))))) =
      pad4 y ++ '-' :: (pad2 m ++ '-' :: (pad2 d ++ ' ' ::
      (pad2 h ++ ':' :: (pad2 mi ++ ':' :: pad2 s)))) := by
    unfold splitHead
    rw [if_neg ?hcond]
    case hcond =>
      simp [pad4, pad2, T_ne_digitChar_mod]
  rw [hT]
  have hSp : splitHead ' ' (pad4 y ++ '-' :: (pad2 m ++ '-' :: (pad2 d ++ ' ' ::
      (pad2 h ++ ':' :: (pad2 mi ++ ':' :: pad2 s))))) =
      pad4 y ++ '-' :: (pad2 m ++ '-' :: pad2 d) := by
    unfold splitHead
    rw [if_pos ?hc]
    case hc =>
      simp [pad4, pad2, space_ne_digitChar_mod]
    have htw : (pad4 y ++ '-' :: (pad2 m ++ '-' :: (pad2 d ++ ' ' ::
        (pad2 h ++ ':' :: (pad2 mi ++ ':' :: pad2 s))))).takeWhile (· ≠ ' ') =
        pad4 y ++ '-' :: (pad2 m ++ '-' :: pad2 d) := by
      simp [pad4, pad2, List.takeWhile_cons, digitChar_mod_ne_space]
    rw [htw]
    apply pyStrip_eq_self
    · intro c hc
      simp [pad4, pad2] at hc
      rw [← hc]
      exact isPySpace_digitChar_mod _
    · intro c hc
      simp [pad4, pad2] at hc
      rw [← hc]
      exact isPySpace_digitChar_mod _
  rw [hSp]
  simp [pad4, pad2, digitChar_mod_ne_colon, dashDShape]

theorem extmeta_dashDShape (y m d : Nat) :
    extmetaNormalizeValue (dashDShape y m d) = some (dashDShape y m d) := by
  unfold extmetaNormalizeValue
  conv in (dashDShape y m d).data => rw [show (dashDShape y m d).data =
    pad4 y ++ '-' :: (pad2 m ++ '-' :: pad2 d) from rfl]
  rw [pyStrip_dashDShape]
  dsimp only
  have hT : splitHead 'T' (pad4 y ++ '-' :: (pad2 m ++ '-' :: pad2 d)) =
      pad4 y ++ '-' :: (pad2 m ++ '-' :: pad2 d) := by
    unfold splitHead
    rw [if_neg ?hcond]
    case hcond =>
      simp [pad4, pad2, T_ne_digitChar_mod]
  rw [hT]
  have hSp : splitHead ' ' (pad4 y ++ '-' :: (pad2 m ++ '-' :: pad2 d)) =
      pad4 y ++ '-' :: (pad2 m ++ '-' :: pad2 d) := by
    unfold splitHead
    rw [if_neg ?hcond]
    case hcond =>
      simp [pad4, pad2, space_ne_digitChar_mod]
  rw [hSp]
  simp [pad4, pad2, digitChar_mod_ne_colon, dashDShape]

/-- C7 as amended: date normalization accepts at least the three claimed
shapes. For strings of those shapes denoting valid calendar datetimes, both
the EXIF normalizer and the Commons value normalizer return the YYYY-MM-DD
date; the claimed round trips hold concretely, and "not-a-date" yields none
from both without raising. (The accepted sets are not exact: see the
counterexample.) -/
theorem date_normalization_amended :
    (∀ y m d h mi s : Nat, 1000 ≤ y → y ≤ 9999 → 1 ≤ m → m ≤ 12 → 1 ≤ d →
      d ≤ daysInMonth y m → h ≤ 23 → mi ≤ 59 → s ≤ 59 →
      normalizeExifDatetime (colonDTShape y m d h mi s) = some (dashDShape y m d) ∧
      normalizeExifDatetime (dashDTShape y m d h mi s) = some (dashDShape y m d) ∧
      normalizeExifDatetime (dashDShape y m d) = some (dashDShape y m d) ∧
      extmetaNormalizeValue (colonDTShape y m d h mi s) = some (dashDShape y m d) ∧
      extmetaNormalizeValue (dashDTShape y m d h mi s) = some (dashDShape y m d) ∧
      extmetaNormalizeValue (dashDShape y m d) = some (dashDShape y m d)) ∧
    (normalizeExifDatetime "2019:05:17 13:44:02" = some "2019-05-17" ∧
     normalizeExifDatetime "2019-05-17" = some "2019-05-17" ∧
     normalizeExifDatetime "not-a-date" = none ∧
     extmetaNormalizeValue "2019:05:17 13:44:02" = some "2019-05-17" ∧
     extmetaNormalizeValue "2019-05-17" = some "2019-05-17" ∧
     extmetaNormalizeValue "not-a-date" = none) :=
  ⟨fun y m d h mi s hy1 hy hm1 hm hd1 hd hh hmi hs =>
    ⟨normalizeExif_colonShape y m d h mi s hy1 hy hm1 hm hd1 hd hh hmi hs,
     normalizeExif_dashDTShape y m d h mi s hy1 hy hm1 hm hd1 hd hh hmi hs,
     normalizeExif_dashDShape y m d hy1 hy hm1 hm hd1 hd,
     extmeta_colonShape y m d h mi s,
     extmeta_dashDTShape y m d h mi s,
     extmeta_dashDShape y m d⟩,
   ⟨rfl, rfl, rfl, rfl, rfl, rfl⟩⟩

/-- Witness for the amended C7 at the concrete datetime 2019-05-17
13:44:02. -/
theorem date_normalization_amended_witness :
    normalizeExifDatetime (colonDTShape 2019 5 17 13 44 2) = some (dashDShape 2019 5 17) ∧
    extmetaNormalizeValue (colonDTShape 2019 5 17 13 44 2) = some (dashDShape 2019 5 17) := by
  have h := date_normalization_amended.1 2019 5 17 13 44 2 (by decide) (by decide)
    (by decide) (by decide) (by decide) (by decide) (by decide) (by decide) (by decide)
  exact ⟨h.1, h.2.2.2.1⟩

end AgeFlow
